import Mathlib

/-!
Verification of the ring-dispatch scheduler of the circular rail system
(`models.py`, `state_manager.py`, `main.py`).

The embedding mirrors the Python source:
* the three vehicles `"a"`, `"b"`, `"c"` become the inductive type `VId`
  (the `vehicles` dict always holds exactly these three keys);
* the `stations` dict with keys `1,2,3,4` becomes the four-field structure
  `Stations`; indexing it at an arbitrary integer is modelled by
  `Stations.get?` / `Stations.set?`, which return `none` exactly where the
  Python dict raises `KeyError`;
* station numbers and targets are `Int` (Python ints; Python's `%` on a
  positive modulus agrees with `Int.emod`);
* Python truthiness tests (`if vehicle.current_command_id:`,
  `if target_station:`, `if old_station:`) are modelled explicitly: `None`
  and `0` are falsy;
* an operation that can raise an uncaught exception returns an explicit
  result flag together with the state as mutated up to the raise point;
* the unbounded recursion of `_calculate_move_for_vehicle` is given an
  explicit fuel argument; exhausting the fuel models Python's
  `RecursionError`.
-/

namespace RingRail

/-- The vehicle identifiers `"a"`, `"b"`, `"c"` (models.py fixes exactly
these three keys in `SystemState.vehicles`). -/
inductive VId where
  | a
  | b
  | c
deriving DecidableEq

/-- Embedding of `models.Action`. -/
inductive Action where
  | forward
  | backward
  | stop
deriving DecidableEq

/-- Embedding of `models.VehicleStatus`. -/
inductive VehicleStatus where
  | idle
  | moving
  | waiting
deriving DecidableEq

/-- Embedding of `models.ReportEvent`. -/
inductive ReportEvent where
  | arrived
  | error
deriving DecidableEq

/-- Embedding of `models.VehicleState`. -/
structure VehicleState where
  current_station : Option Int
  status : VehicleStatus
  current_command_id : Option Nat
deriving DecidableEq

/-- Embedding of `models.StationState` for the four stations `1,2,3,4`: field `sK` is
`stations[K].occupied_by`. -/
structure Stations where
  s1 : Option VId
  s2 : Option VId
  s3 : Option VId
  s4 : Option VId
deriving DecidableEq

/-- Embedding of `models.PendingCall`. -/
structure PendingCall where
  vehicle : VId
  target_station : Int
deriving DecidableEq

/-- Embedding of `models.SystemState`; the `vehicles` dict is flattened into the three
fields `va`, `vb`, `vc`. -/
structure SystemState where
  va : VehicleState
  vb : VehicleState
  vc : VehicleState
  stations : Stations
  pending_calls : List PendingCall
  next_command_id : Nat
  initialized : Bool
deriving DecidableEq

/-- Embedding of `models.CommandResponse`. -/
structure CommandResponse where
  command_id : Nat
  action : Action
  expected_station : Option Int
deriving DecidableEq

/-- Embedding of `models.VehicleReport`. -/
structure VehicleReport where
  command_id : Nat
  event : ReportEvent
  expected_station : Int
  detected_station : Int
  pattern_confident : Bool
  mismatch : Bool
deriving DecidableEq

/-- Lookup `self.state.vehicles[vid]`. -/
def SystemState.getV (st : SystemState) : VId → VehicleState
  | .a => st.va
  | .b => st.vb
  | .c => st.vc

/-- Mutating `self.state.vehicles[vid]`. -/
def SystemState.setV (st : SystemState) (v : VId) (x : VehicleState) : SystemState :=
  match v with
  | .a => { st with va := x }
  | .b => { st with vb := x }
  | .c => { st with vc := x }

/-- Reading `self.state.stations[k].occupied_by`; `none` models `KeyError`. -/
def Stations.get? (s : Stations) (k : Int) : Option (Option VId) :=
  if k = 1 then some s.s1
  else if k = 2 then some s.s2
  else if k = 3 then some s.s3
  else if k = 4 then some s.s4
  else none

/-- Occupancy lookup at a key that is known to be in range (the move-selection
code only ever indexes `stations` at `_get_next_station`/`_get_prev_station`
values, which lie in `{1,2,3,4}`). -/
def Stations.occ (s : Stations) (k : Int) : Option VId :=
  (s.get? k).getD none

/-- Writing `self.state.stations[k].occupied_by = v`; `none` models `KeyError`. -/
def Stations.set? (s : Stations) (k : Int) (v : Option VId) : Option Stations :=
  if k = 1 then some { s with s1 := v }
  else if k = 2 then some { s with s2 := v }
  else if k = 3 then some { s with s3 := v }
  else if k = 4 then some { s with s4 := v }
  else none

/-- Writing at a key known to be in range (used where the source indexes
with an already-validated station number). -/
def Stations.set! (s : Stations) (k : Int) (v : Option VId) : Stations :=
  (s.set? k v).getD s

/-- Number of occupied stations. -/
def Stations.occCount (s : Stations) : Nat :=
  (if s.s1.isSome then 1 else 0) + (if s.s2.isSome then 1 else 0) +
  (if s.s3.isSome then 1 else 0) + (if s.s4.isSome then 1 else 0)

/-- Embedding of `StateManager._get_next_station`. -/
def getNextStation : Option Int → Int
  | none => 1
  | some current => current % 4 + 1

/-- Embedding of `StateManager._get_prev_station`. -/
def getPrevStation (current : Int) : Int :=
  (current - 2) % 4 + 1

/-- The fresh state built by `SystemState()` in `StateManager.__init__`. -/
def initState : SystemState :=
  { va := ⟨none, .idle, none⟩
    vb := ⟨none, .idle, none⟩
    vc := ⟨none, .idle, none⟩
    stations := ⟨none, none, none, none⟩
    pending_calls := []
    next_command_id := 1
    initialized := false }

/-- Python `set(xs) == set(ys)` for lists of strings. -/
def setEqB (xs ys : List String) : Bool :=
  xs.all (fun x => ys.contains x) && ys.all (fun y => xs.contains y)

/-- Mapping a positions-dict key to a vehicle; validation guarantees the
key is one of `"a"`, `"b"`, `"c"`, so the `none` case is unreachable on the
success path. -/
def toVId : String → Option VId
  | "a" => some .a
  | "b" => some .b
  | "c" => some .c
  | _ => none

/-- One iteration of the assignment loop in `StateManager.initialize`
(lines 51-54): set the vehicle's station and status, and the station's
occupant.  The station number was validated to lie in `{1,2,3,4}`, so the
total `set!` matches the dict write. -/
def assignPos (acc : SystemState) (p : String × Int) : SystemState :=
  match toVId p.1 with
  | some v =>
    let acc1 := acc.setV v { acc.getV v with current_station := some p.2, status := .idle }
    { acc1 with stations := acc1.stations.set! p.2 (some v) }
  | none => acc

/-- Embedding of `StateManager.initialize`.  The positions dict is modelled as an
association list with distinct keys (dict iteration order).  Returns the
Python return value together with the resulting state. -/
def init_system (st : SystemState) (ps : List (String × Int)) : Bool × SystemState :=
  if !setEqB (ps.map Prod.fst) ["a", "b", "c"] then (false, st)
  else if !(ps.all (fun p => [(1 : Int), 2, 3, 4].contains p.2)) then (false, st)
  else if (ps.map Prod.snd).dedup.length ≠ (ps.map Prod.snd).length then (false, st)
  else
    let cleared : SystemState := { st with stations := ⟨none, none, none, none⟩ }
    let assigned := ps.foldl assignPos cleared
    (true, { assigned with initialized := true, pending_calls := [] })

/-- The in-place update of the first pending call for `v`
(`call.target_station = target_station` in `StateManager.add_call`). -/
def updateFirstCall : List PendingCall → VId → Int → List PendingCall
  | [], _, _ => []
  | c :: rest, v, t =>
    if c.vehicle = v then { c with target_station := t } :: rest
    else c :: updateFirstCall rest v t

/-- Whether some pending call names `v`. -/
def hasCall (l : List PendingCall) (v : VId) : Bool :=
  l.any (fun c => c.vehicle = v)

/-- Embedding of `StateManager.add_call`. -/
def add_call (st : SystemState) (vehicle : VId) (target : Int) : Bool × SystemState :=
  if !st.initialized then (false, st)
  else if (st.getV vehicle).current_station = some target then (true, st)
  else if hasCall st.pending_calls vehicle then
    (true, { st with pending_calls := updateFirstCall st.pending_calls vehicle target })
  else
    (true, { st with pending_calls := st.pending_calls ++ [⟨vehicle, target⟩] })

/-- Result of the `POST /api/v1/call` endpoint. -/
inductive CallResult where
  | ok (b : Bool)
  | invalidTarget
deriving DecidableEq

/-- The `RequestMove` operation as exposed by `main.call_vehicle`: the
request body is validated by `models.CallRequest` (`station` constrained to
`ge=1, le=4`) before `add_call` runs, so an out-of-range target is rejected
with no state change. -/
def requestMove (st : SystemState) (vehicle : VId) (target : Int) :
    CallResult × SystemState :=
  if target < 1 ∨ 4 < target then (.invalidTarget, st)
  else
    let r := add_call st vehicle target
    (.ok r.1, r.2)

/-- A move recommendation dict produced by the move-selection algorithm. -/
structure Move where
  vehicle : VId
  action : Action
  expected_station : Int
deriving DecidableEq

/-- Embedding of `StateManager._calculate_move_for_vehicle`.  The Python function
recurses with no structural bound; `fuel` counts the remaining recursion
depth and the outer `none` models a `RecursionError`. -/
def calcMoveFor : Nat → SystemState → VId → Option (Option Move)
  | 0, _, _ => none
  | fuel + 1, st, vid =>
    match (st.getV vid).current_station with
    | none => some none
    | some current =>
      let next := current % 4 + 1
      match st.stations.occ next with
      | none => some (some ⟨vid, .forward, next⟩)
      | some blocking =>
        if blocking ≠ vid then calcMoveFor fuel st blocking
        else some none

/-- The queue-processing loop of `StateManager._calculate_next_move`:
satisfied head calls are popped (`pending_calls.pop(0)`) and the method
recurses; the returned list is the queue after those pops. -/
def calcNextMoveQ (fuel : Nat) (st : SystemState) :
    List PendingCall → Option (Option Move) × List PendingCall
  | [] => (some none, [])
  | call :: rest =>
    if (st.getV call.vehicle).current_station = some call.target_station then
      calcNextMoveQ fuel st rest
    else
      match (st.getV call.vehicle).current_station with
      | none => (some none, call :: rest)
      | some current =>
        let next := current % 4 + 1
        match st.stations.occ next with
        | none => (some (some ⟨call.vehicle, .forward, next⟩), call :: rest)
        | some blocking => (calcMoveFor fuel st blocking, call :: rest)

/-- Embedding of `StateManager._calculate_next_move`, including its mutation of the
pending queue. -/
def calcNextMove (fuel : Nat) (st : SystemState) :
    Option (Option Move) × SystemState :=
  let r := calcNextMoveQ fuel st st.pending_calls
  (r.1, { st with pending_calls := r.2 })

/-- Python truthiness of `vehicle.current_command_id`. -/
def truthyCid : Option Nat → Bool
  | some n => n ≠ 0
  | none => false

/-- Python truthiness of the `target_station` local in `get_command`. -/
def truthyTarget : Option Int → Bool
  | some t => t ≠ 0
  | none => false

/-- Python `vehicle.current_command_id or 0`. -/
def cidOr0 (c : Option Nat) : Nat :=
  if truthyCid c then c.getD 0 else 0

/-- The first pending call naming `v` (the `for call in pending_calls`
search in `get_command`). -/
def findTarget : List PendingCall → VId → Option Int
  | [], _ => none
  | c :: rest, v => if c.vehicle = v then some c.target_station else findTarget rest v

/-- Result of `StateManager.get_command`: either the Python return value
(`None` or a `CommandResponse`), or a `RecursionError` escaping from
`_calculate_move_for_vehicle`. -/
inductive CmdResult where
  | resp (r : Option CommandResponse)
  | recursionError
deriving DecidableEq

/-- The idempotent re-poll branch of `get_command` (lines 114-129): a
moving vehicle with a truthy command id and a truthy pending target is
re-issued its current command id with the recomputed next station. -/
def repollResp (st : SystemState) (vid : VId) : Option CommandResponse :=
  let veh := st.getV vid
  if veh.status = VehicleStatus.moving ∧ truthyCid veh.current_command_id then
    if truthyTarget (findTarget st.pending_calls vid) then
      some ⟨veh.current_command_id.getD 0, .forward,
            some (getNextStation veh.current_station)⟩
    else none
  else none

/-- The new-command branch of `get_command` (lines 135-146): mint a fresh
command id and mark the vehicle moving. -/
def mintResp (st : SystemState) (vid : VId) (m : Move) : CmdResult × SystemState :=
  let cid := st.next_command_id
  let st2 := { st with next_command_id := cid + 1 }
  let st3 := st2.setV vid
    { st2.getV vid with status := VehicleStatus.moving, current_command_id := some cid }
  (.resp (some ⟨cid, m.action, some m.expected_station⟩), st3)

/-- The final `stop` response of `get_command` (lines 149-153). -/
def stopResp (st : SystemState) (vid : VId) : CmdResult × SystemState :=
  (.resp (some ⟨cidOr0 (st.getV vid).current_command_id, .stop, none⟩), st)

/-- Embedding of `StateManager.get_command`.  The state component is the manager state
after the call (including the pops performed by `_calculate_next_move`,
which happen before any `RecursionError` could be raised). -/
def get_command (fuel : Nat) (st : SystemState) (vid : VId) :
    CmdResult × SystemState :=
  if !st.initialized then (.resp none, st)
  else
    match repollResp st vid with
    | some resp => (.resp (some resp), st)
    | none =>
      match (calcNextMove fuel st).1 with
      | none => (.recursionError, (calcNextMove fuel st).2)
      | some (some m) =>
        if m.vehicle = vid then mintResp (calcNextMove fuel st).2 vid m
        else stopResp (calcNextMove fuel st).2 vid
      | some none => stopResp (calcNextMove fuel st).2 vid

/-- The station `handle_report` resolves an arrived report to: the detected
station when the pattern is confident, the expected station otherwise. -/
def resolved (r : VehicleReport) : Int :=
  if r.pattern_confident then r.detected_station else r.expected_station

/-- Python `pending_calls.remove(call)` for the first call matching vehicle and
target (the search-and-remove loop at the end of the arrived branch). -/
def removeFirstCall : List PendingCall → VId → Int → List PendingCall
  | [], _, _ => []
  | c :: rest, v, t =>
    if c.vehicle = v ∧ c.target_station = t then rest
    else c :: removeFirstCall rest v t

/-- Result of `StateManager.handle_report`: the Python return value, or an
uncaught `KeyError` from indexing the stations dict. -/
inductive ReportResult where
  | ok (b : Bool)
  | keyError
deriving DecidableEq

/-- The tail of the arrived branch of `handle_report`, from
`self.state.stations[actual_station].occupied_by = vehicle_id` onwards:
set the new occupancy (possibly raising `KeyError`), then drop a satisfied
pending call. -/
def handleArrivedSet (st : SystemState) (vid : VId) (actual : Int) :
    ReportResult × SystemState :=
  match st.stations.set? actual (some vid) with
  | none => (.keyError, st)
  | some sm =>
    let st2 := { st with stations := sm }
    (.ok true, { st2 with pending_calls := removeFirstCall st2.pending_calls vid actual })

/-- Embedding of `StateManager.handle_report`.  On `KeyError` the returned state is the
manager state as already mutated before the raise (the exception escapes to
the transport layer but the mutations persist). -/
def handle_report (st : SystemState) (vid : VId) (r : VehicleReport) :
    ReportResult × SystemState :=
  match r.event with
  | .arrived =>
    let veh := st.getV vid
    let actual := resolved r
    let oldSt := veh.current_station
    let st1 := st.setV vid { veh with current_station := some actual, status := .idle }
    match oldSt with
    | some o =>
      if o ≠ 0 then
        match st1.stations.set? o none with
        | none => (.keyError, st1)
        | some sm => handleArrivedSet { st1 with stations := sm } vid actual
      else handleArrivedSet st1 vid actual
    | none => handleArrivedSet st1 vid actual
  | .error =>
    (.ok true, st.setV vid { st.getV vid with status := .idle })

/-- A move dict produced by `_find_move_chain` (`from_station` can be the
vehicle's `None` position). -/
structure SimMove where
  vehicle : VId
  from_station : Option Int
  to_station : Int
deriving DecidableEq

/-- The first empty station in the 1,2,3,4 iteration order of the
`sim_stations` dict. -/
def Stations.findEmpty (s : Stations) : Option Int :=
  if s.s1 = none then some 1
  else if s.s2 = none then some 2
  else if s.s3 = none then some 3
  else if s.s4 = none then some 4
  else none

/-- Embedding of `StateManager._find_move_chain`, on the simulated vehicle-position and
occupancy copies. -/
def find_move_chain (vst : VId → Option Int) (stm : Stations) (target : VId) :
    List SimMove :=
  let current := vst target
  let nextDesired := getNextStation current
  if stm.occ nextDesired = none then
    [⟨target, current, nextDesired⟩]
  else
    match stm.findEmpty with
    | none => []
    | some e =>
      let prev := getPrevStation e
      match stm.occ prev with
      | none => []
      | some w => [⟨w, some prev, e⟩]

/-- A `movement_plan` entry of `_simulate_next_moves`. -/
structure PlanMove where
  step : Nat
  vehicle : VId
  from_station : Option Int
  to_station : Int
  reason : String
deriving DecidableEq

/-- The `while` loop of `StateManager._simulate_next_moves`.  Every
iteration either pops a simulated call or appends a move (bounded by
`maxMoves`), so the fuel passed by `simulate_next_moves` always exceeds the
iteration count and the fuel-exhaustion branch is unreachable. -/
def simLoop (maxMoves : Nat) :
    Nat → (VId → Option Int) → Stations → List PendingCall → List PlanMove → Nat →
    List PlanMove
  | 0, _, _, _, moves, _ => moves
  | fuel + 1, vst, stm, calls, moves, step =>
    match calls with
    | [] => moves
    | call :: rest =>
      if maxMoves ≤ moves.length then moves
      else if vst call.vehicle = some call.target_station then
        simLoop maxMoves fuel vst stm rest moves step
      else
        match find_move_chain vst stm call.vehicle with
        | [] => moves
        | fm :: _ =>
          let newMoves := moves ++ [⟨step, fm.vehicle, fm.from_station, fm.to_station,
            if fm.vehicle = call.vehicle then "moving_to_target" else "making_space"⟩]
          let stm1 := match fm.from_station with
            | some f => stm.set! f none
            | none => stm
          let stm2 := stm1.set! fm.to_station (some fm.vehicle)
          let vst1 := fun w => if w = fm.vehicle then some fm.to_station else vst w
          let calls1 :=
            if fm.vehicle = call.vehicle ∧ fm.to_station = call.target_station then rest
            else call :: rest
          simLoop maxMoves fuel vst1 stm2 calls1 newMoves (step + 1)

/-- Embedding of `StateManager._simulate_next_moves`: run the look-ahead loop on private
copies of the vehicle positions, occupancy and queue. -/
def simulate_next_moves (st : SystemState) (maxMoves : Nat) : List PlanMove :=
  simLoop maxMoves (maxMoves + st.pending_calls.length + 1)
    (fun v => (st.getV v).current_station) st.stations st.pending_calls [] 1

/-! Section: The placement invariant: each vehicle occupies its own station -/

/-- Occupant of station `k` when the three vehicles sit at the distinct
stations `sa`, `sb`, `sc`. -/
def occOf (sa sb sc k : Int) : Option VId :=
  if sa = k then some .a else if sb = k then some .b else if sc = k then some .c else none

/-- The stations map determined by vehicle positions `sa`, `sb`, `sc`. -/
def mkStations (sa sb sc : Int) : Stations :=
  ⟨occOf sa sb sc 1, occOf sa sb sc 2, occOf sa sb sc 3, occOf sa sb sc 4⟩

/-- Mutual consistency of the vehicle-to-station and station-to-occupant
maps: vehicle `a` is at `sa`, `b` at `sb`, `c` at `sc`, the stations are
distinct and in range, and the occupancy map is exactly the one induced by
the positions. -/
def Placed (st : SystemState) (sa sb sc : Int) : Prop :=
  st.va.current_station = some sa ∧ st.vb.current_station = some sb ∧
  st.vc.current_station = some sc ∧
  (1 ≤ sa ∧ sa ≤ 4) ∧ (1 ≤ sb ∧ sb ≤ 4) ∧ (1 ≤ sc ∧ sc ≤ 4) ∧
  sa ≠ sb ∧ sa ≠ sc ∧ sb ≠ sc ∧
  st.stations = mkStations sa sb sc

instance (st : SystemState) (sa sb sc : Int) : Decidable (Placed st sa sb sc) := by
  unfold Placed
  infer_instance

/-- Some consistent placement exists. -/
def WellPlaced (st : SystemState) : Prop :=
  ∃ sa sb sc, Placed st sa sb sc

/-! Section: Reachability

`Reach` is reachability through the scheduler's public operations, starting
from a successful `initialize` on the fresh manager state: a `RequestMove`
(the validated `/api/v1/call` endpoint), a `NextCommand` poll (any fuel;
a `RecursionError` outcome still leaves the already-performed queue pops
in place, as in Python), or a `ReportArrival` with an arbitrary report.
`ReachG` is the same relation but with every completed arrived report
restricted to resolve to a station that is currently empty or is the
reporting vehicle's own station. -/

inductive Reach : SystemState → Prop where
  | init : ∀ (ps : List (String × Int)) (st' : SystemState),
      (ps.map Prod.fst).Nodup → init_system initState ps = (true, st') → Reach st'
  | call : ∀ (st : SystemState) (v : VId) (t : Int) (res : CallResult) (st' : SystemState),
      Reach st → requestMove st v t = (res, st') → Reach st'
  | cmd : ∀ (st : SystemState) (fuel : Nat) (v : VId) (res : CmdResult) (st' : SystemState),
      Reach st → get_command fuel st v = (res, st') → Reach st'
  | report : ∀ (st : SystemState) (v : VId) (r : VehicleReport) (res : ReportResult)
      (st' : SystemState),
      Reach st → handle_report st v r = (res, st') → Reach st'

inductive ReachG : SystemState → Prop where
  | init : ∀ (ps : List (String × Int)) (st' : SystemState),
      (ps.map Prod.fst).Nodup → init_system initState ps = (true, st') → ReachG st'
  | call : ∀ (st : SystemState) (v : VId) (t : Int) (res : CallResult) (st' : SystemState),
      ReachG st → requestMove st v t = (res, st') → ReachG st'
  | cmd : ∀ (st : SystemState) (fuel : Nat) (v : VId) (res : CmdResult) (st' : SystemState),
      ReachG st → get_command fuel st v = (res, st') → ReachG st'
  | report : ∀ (st : SystemState) (v : VId) (r : VehicleReport) (b : Bool)
      (st' : SystemState),
      ReachG st →
      (r.event = ReportEvent.arrived → 1 ≤ resolved r ∧ resolved r ≤ 4 ∧
        (st.stations.occ (resolved r) = none ∨ st.stations.occ (resolved r) = some v)) →
      handle_report st v r = (.ok b, st') → ReachG st'

/-- The invariant backing the amended C7 claim: the command counter stays
positive and every moving vehicle carries a truthy command id. -/
def CmdInv (st : SystemState) : Prop :=
  1 ≤ st.next_command_id ∧
  ∀ v, (st.getV v).status = VehicleStatus.moving →
    truthyCid (st.getV v).current_command_id = true

/-! Section: Concrete reachable states used by the witnesses and counterexamples -/

/-- The spec's canonical initial placement `{"a":1,"b":2,"c":3}`. -/
def posABC : List (String × Int) := [("a", 1), ("b", 2), ("c", 3)]

/-- The state after a successful `initialize` with `posABC`. -/
def stA : SystemState := (init_system initState posABC).2

/-! Section: C1: the occupancy invariant -/

/-- A confident arrived report claiming vehicle a is at station 2, which is
vehicle b's station. -/
def rBad : VehicleReport := ⟨1, .arrived, 2, 2, true, false⟩

/-- The reachable state obtained by sending `rBad` right after a successful
initialize at `{"a":1,"b":2,"c":3}`. -/
def stBad : SystemState := (handle_report stA VId.a rBad).2

/-! Section: C2: idempotent re-poll -/

/-- State with a pending request for vehicle a (whose path is blocked), so
that polling vehicle c mints a command for c as the end of the move chain. -/
def stC2q : SystemState := (requestMove stA VId.a 3).2

/-- After the first poll of c: c is moving with command id 1 but has no
pending request of its own. -/
def stC2m : SystemState := (get_command 10 stC2q VId.c).2

def C2poll2 : CmdResult × SystemState := get_command 10 stC2m VId.c

def C2poll3 : CmdResult × SystemState := get_command 10 C2poll2.2 VId.c

/-- The moving-with-own-request state used as the C2 witness: c requested
station 1, was polled once (command id 1, moving), and still owns the
pending request. -/
def stC2w : SystemState := (get_command 10 (requestMove stA VId.c 1).2 VId.c).2

/-! Section: C6: termination of the blocking-resolution chain -/

/-- A station-occupancy map in which the occupancy chain starting at vehicle
a cycles a → b → c → a without passing an empty station (vehicle id a
occupies two stations, as can arise after inconsistent reports). -/
def cycState : SystemState :=
  { stA with stations := ⟨some .a, some .b, some .c, some .a⟩ }

/-! Section: C7: activeCommandId iff moving -/

/-- Request c to station 4. -/
def stC7a : SystemState := (requestMove stA VId.c 4).2

/-- Poll c: command id 1 is minted, c is moving. -/
def stC7b : SystemState := (get_command 10 stC7a VId.c).2

/-- c reports a confident arrival at station 4. -/
def stC7c : SystemState := (handle_report stC7b VId.c ⟨1, .arrived, 4, 4, true, false⟩).2

/-! Section: C8: the chain-resolution scenario -/

/-- No two vehicles share a station. -/
def NoShared (st : SystemState) : Prop :=
  (st.getV VId.a).current_station ≠ (st.getV VId.b).current_station ∧
  (st.getV VId.a).current_station ≠ (st.getV VId.c).current_station ∧
  (st.getV VId.b).current_station ≠ (st.getV VId.c).current_station

instance (st : SystemState) : Decidable (NoShared st) := by
  unfold NoShared
  infer_instance

def t8s0 : SystemState := (requestMove stA VId.c 1).2

def t8g1 : CmdResult × SystemState := get_command 10 t8s0 VId.c

def t8s1 : SystemState := (handle_report t8g1.2 VId.c ⟨1, .arrived, 4, 4, true, false⟩).2

def t8g2 : CmdResult × SystemState := get_command 10 t8s1 VId.b

def t8s2 : SystemState := (handle_report t8g2.2 VId.b ⟨2, .arrived, 3, 3, true, false⟩).2

def t8g3 : CmdResult × SystemState := get_command 10 t8s2 VId.a

def t8s3 : SystemState := (handle_report t8g3.2 VId.a ⟨3, .arrived, 2, 2, true, false⟩).2

def t8g4 : CmdResult × SystemState := get_command 10 t8s3 VId.c

def t8s4 : SystemState := (handle_report t8g4.2 VId.c ⟨4, .arrived, 1, 1, true, false⟩).2

/-- The station of each vehicle in a placement. -/
def stationOf (sa sb sc : Int) : VId → Int
  | .a => sa
  | .b => sb
  | .c => sc

/-! Section: Basic lemmas about the state accessors -/

@[simp] theorem getV_setV_self (st : SystemState) (v : VId) (x : VehicleState) :
    (st.setV v x).getV v = x := by
  cases v <;> rfl

theorem getV_setV_ne (st : SystemState) (v w : VId) (x : VehicleState) (h : w ≠ v) :
    (st.setV v x).getV w = st.getV w := by
  cases v <;> cases w <;> first | rfl | exact absurd rfl h

@[simp] theorem setV_stations (st : SystemState) (v : VId) (x : VehicleState) :
    (st.setV v x).stations = st.stations := by
  cases v <;> rfl

@[simp] theorem setV_pending (st : SystemState) (v : VId) (x : VehicleState) :
    (st.setV v x).pending_calls = st.pending_calls := by
  cases v <;> rfl

@[simp] theorem setV_ncid (st : SystemState) (v : VId) (x : VehicleState) :
    (st.setV v x).next_command_id = st.next_command_id := by
  cases v <;> rfl

@[simp] theorem setV_initialized (st : SystemState) (v : VId) (x : VehicleState) :
    (st.setV v x).initialized = st.initialized := by
  cases v <;> rfl

@[simp] theorem getV_upd_stations (st : SystemState) (s : Stations) (v : VId) :
    ({ st with stations := s } : SystemState).getV v = st.getV v := by
  cases v <;> rfl

@[simp] theorem getV_upd_pending (st : SystemState) (q : List PendingCall) (v : VId) :
    ({ st with pending_calls := q } : SystemState).getV v = st.getV v := by
  cases v <;> rfl

@[simp] theorem getV_upd_ncid (st : SystemState) (n : Nat) (v : VId) :
    ({ st with next_command_id := n } : SystemState).getV v = st.getV v := by
  cases v <;> rfl

/-! Section: Lemmas about the stations map -/

theorem set?_eq_some_of_range (s : Stations) (k : Int) (v : Option VId)
    (h1 : 1 ≤ k) (h2 : k ≤ 4) : s.set? k v = some (s.set! k v) := by
  have : k = 1 ∨ k = 2 ∨ k = 3 ∨ k = 4 := by omega
  rcases this with rfl | rfl | rfl | rfl <;> rfl

theorem set?_eq_none_of_out (s : Stations) (k : Int) (v : Option VId)
    (h : ¬(1 ≤ k ∧ k ≤ 4)) : s.set? k v = none := by
  have h1 : k ≠ 1 := by omega
  have h2 : k ≠ 2 := by omega
  have h3 : k ≠ 3 := by omega
  have h4 : k ≠ 4 := by omega
  simp [Stations.set?, h1, h2, h3, h4]

theorem occ_set!_self (s : Stations) (k : Int) (v : Option VId)
    (h1 : 1 ≤ k) (h2 : k ≤ 4) : (s.set! k v).occ k = v := by
  have : k = 1 ∨ k = 2 ∨ k = 3 ∨ k = 4 := by omega
  rcases this with rfl | rfl | rfl | rfl <;> rfl

theorem occ_set!_ne (s : Stations) (k k' : Int) (v : Option VId)
    (h : k' ≠ k) : (s.set! k v).occ k' = s.occ k' := by
  by_cases hr : 1 ≤ k ∧ k ≤ 4
  · have : k = 1 ∨ k = 2 ∨ k = 3 ∨ k = 4 := by omega
    rcases this with rfl | rfl | rfl | rfl <;>
      simp [Stations.set!, Stations.set?, Stations.occ, Stations.get?, h]
  · rw [Stations.set!, set?_eq_none_of_out s k v hr]
    rfl

theorem occ_out_of_range (s : Stations) (k : Int) (h : ¬(1 ≤ k ∧ k ≤ 4)) :
    s.occ k = none := by
  have h1 : k ≠ 1 := by omega
  have h2 : k ≠ 2 := by omega
  have h3 : k ≠ 3 := by omega
  have h4 : k ≠ 4 := by omega
  simp [Stations.occ, Stations.get?, h1, h2, h3, h4]

theorem stations_ext (s t : Stations) (h1 : s.occ 1 = t.occ 1) (h2 : s.occ 2 = t.occ 2)
    (h3 : s.occ 3 = t.occ 3) (h4 : s.occ 4 = t.occ 4) : s = t := by
  cases s
  cases t
  simp_all [Stations.occ, Stations.get?]

theorem findEmpty_occ (s : Stations) (e : Int) (h : s.findEmpty = some e) :
    s.occ e = none ∧ 1 ≤ e ∧ e ≤ 4 := by
  unfold Stations.findEmpty at h
  split_ifs at h with h1 h2 h3 h4
  · injection h with h'
    subst h'
    exact ⟨by simp [Stations.occ, Stations.get?, h1], by omega, by omega⟩
  · injection h with h'
    subst h'
    exact ⟨by simp [Stations.occ, Stations.get?, h2], by omega, by omega⟩
  · injection h with h'
    subst h'
    exact ⟨by simp [Stations.occ, Stations.get?, h3], by omega, by omega⟩
  · injection h with h'
    subst h'
    exact ⟨by simp [Stations.occ, Stations.get?, h4], by omega, by omega⟩

theorem occ_mk_of_range (sa sb sc k : Int) (h : 1 ≤ k ∧ k ≤ 4) :
    (mkStations sa sb sc).occ k = occOf sa sb sc k := by
  have : k = 1 ∨ k = 2 ∨ k = 3 ∨ k = 4 := by omega
  rcases this with rfl | rfl | rfl | rfl <;> rfl

theorem occ_mk_a (sa sb sc : Int) (ha : 1 ≤ sa ∧ sa ≤ 4) :
    (mkStations sa sb sc).occ sa = some .a := by
  rw [occ_mk_of_range sa sb sc sa ha]
  simp [occOf]

theorem occ_mk_b (sa sb sc : Int) (hb : 1 ≤ sb ∧ sb ≤ 4) (hab : sa ≠ sb) :
    (mkStations sa sb sc).occ sb = some .b := by
  rw [occ_mk_of_range sa sb sc sb hb]
  simp [occOf, hab]

theorem occ_mk_c (sa sb sc : Int) (hc : 1 ≤ sc ∧ sc ≤ 4) (hac : sa ≠ sc) (hbc : sb ≠ sc) :
    (mkStations sa sb sc).occ sc = some .c := by
  rw [occ_mk_of_range sa sb sc sc hc]
  simp [occOf, hac, hbc]

theorem occ_mk_eq_a (sa sb sc k : Int) (h : (mkStations sa sb sc).occ k = some .a) :
    k = sa := by
  by_cases hr : 1 ≤ k ∧ k ≤ 4
  · rw [occ_mk_of_range sa sb sc k hr] at h
    unfold occOf at h
    split_ifs at h <;> simp_all
  · rw [occ_out_of_range _ _ hr] at h
    cases h

theorem occ_mk_eq_b (sa sb sc k : Int) (h : (mkStations sa sb sc).occ k = some .b) :
    k = sb := by
  by_cases hr : 1 ≤ k ∧ k ≤ 4
  · rw [occ_mk_of_range sa sb sc k hr] at h
    unfold occOf at h
    split_ifs at h <;> simp_all
  · rw [occ_out_of_range _ _ hr] at h
    cases h

theorem occ_mk_eq_c (sa sb sc k : Int) (h : (mkStations sa sb sc).occ k = some .c) :
    k = sc := by
  by_cases hr : 1 ≤ k ∧ k ≤ 4
  · rw [occ_mk_of_range sa sb sc k hr] at h
    unfold occOf at h
    split_ifs at h <;> simp_all
  · rw [occ_out_of_range _ _ hr] at h
    cases h

theorem occ_mk_none_iff (sa sb sc k : Int) (hr : 1 ≤ k ∧ k ≤ 4) :
    (mkStations sa sb sc).occ k = none ↔ (k ≠ sa ∧ k ≠ sb ∧ k ≠ sc) := by
  rw [occ_mk_of_range sa sb sc k hr]
  unfold occOf
  split_ifs with h1 h2 h3
  · simp only [reduceCtorEq, false_iff]
    omega
  · simp only [reduceCtorEq, false_iff]
    omega
  · simp only [reduceCtorEq, false_iff]
    omega
  · simp only [true_iff]
    omega

theorem occCount_mk (sa sb sc : Int) (ha : 1 ≤ sa ∧ sa ≤ 4) (hb : 1 ≤ sb ∧ sb ≤ 4)
    (hc : 1 ≤ sc ∧ sc ≤ 4) (hab : sa ≠ sb) (hac : sa ≠ sc) (hbc : sb ≠ sc) :
    (mkStations sa sb sc).occCount = 3 := by
  obtain ⟨ha1, ha2⟩ := ha
  obtain ⟨hb1, hb2⟩ := hb
  obtain ⟨hc1, hc2⟩ := hc
  interval_cases sa <;> interval_cases sb <;> interval_cases sc <;>
    first | (exact absurd rfl hab) | (exact absurd rfl hac) | (exact absurd rfl hbc) | decide

/-! Section: The state built by a successful initialization -/

@[simp] theorem toVId_a : toVId "a" = some VId.a := rfl

@[simp] theorem toVId_b : toVId "b" = some VId.b := rfl

@[simp] theorem toVId_c : toVId "c" = some VId.c := rfl

theorem build_abc (x y z : Int) (hx : 1 ≤ x ∧ x ≤ 4) (hy : 1 ≤ y ∧ y ≤ 4)
    (hz : 1 ≤ z ∧ z ≤ 4) (hxy : x ≠ y) (hxz : x ≠ z) (hyz : y ≠ z) :
    (((⟨none, none, none, none⟩ : Stations).set! x (some .a)).set! y (some .b)).set! z (some .c)
      = mkStations x y z := by
  obtain ⟨hx1, hx2⟩ := hx
  obtain ⟨hy1, hy2⟩ := hy
  obtain ⟨hz1, hz2⟩ := hz
  interval_cases x <;> interval_cases y <;> interval_cases z <;> revert hxy hxz hyz <;> decide

theorem build_acb (x y z : Int) (hx : 1 ≤ x ∧ x ≤ 4) (hy : 1 ≤ y ∧ y ≤ 4)
    (hz : 1 ≤ z ∧ z ≤ 4) (hxy : x ≠ y) (hxz : x ≠ z) (hyz : y ≠ z) :
    (((⟨none, none, none, none⟩ : Stations).set! x (some .a)).set! y (some .c)).set! z (some .b)
      = mkStations x z y := by
  obtain ⟨hx1, hx2⟩ := hx
  obtain ⟨hy1, hy2⟩ := hy
  obtain ⟨hz1, hz2⟩ := hz
  interval_cases x <;> interval_cases y <;> interval_cases z <;> revert hxy hxz hyz <;> decide

theorem build_bac (x y z : Int) (hx : 1 ≤ x ∧ x ≤ 4) (hy : 1 ≤ y ∧ y ≤ 4)
    (hz : 1 ≤ z ∧ z ≤ 4) (hxy : x ≠ y) (hxz : x ≠ z) (hyz : y ≠ z) :
    (((⟨none, none, none, none⟩ : Stations).set! x (some .b)).set! y (some .a)).set! z (some .c)
      = mkStations y x z := by
  obtain ⟨hx1, hx2⟩ := hx
  obtain ⟨hy1, hy2⟩ := hy
  obtain ⟨hz1, hz2⟩ := hz
  interval_cases x <;> interval_cases y <;> interval_cases z <;> revert hxy hxz hyz <;> decide

theorem build_bca (x y z : Int) (hx : 1 ≤ x ∧ x ≤ 4) (hy : 1 ≤ y ∧ y ≤ 4)
    (hz : 1 ≤ z ∧ z ≤ 4) (hxy : x ≠ y) (hxz : x ≠ z) (hyz : y ≠ z) :
    (((⟨none, none, none, none⟩ : Stations).set! x (some .b)).set! y (some .c)).set! z (some .a)
      = mkStations z x y := by
  obtain ⟨hx1, hx2⟩ := hx
  obtain ⟨hy1, hy2⟩ := hy
  obtain ⟨hz1, hz2⟩ := hz
  interval_cases x <;> interval_cases y <;> interval_cases z <;> revert hxy hxz hyz <;> decide

theorem build_cab (x y z : Int) (hx : 1 ≤ x ∧ x ≤ 4) (hy : 1 ≤ y ∧ y ≤ 4)
    (hz : 1 ≤ z ∧ z ≤ 4) (hxy : x ≠ y) (hxz : x ≠ z) (hyz : y ≠ z) :
    (((⟨none, none, none, none⟩ : Stations).set! x (some .c)).set! y (some .a)).set! z (some .b)
      = mkStations y z x := by
  obtain ⟨hx1, hx2⟩ := hx
  obtain ⟨hy1, hy2⟩ := hy
  obtain ⟨hz1, hz2⟩ := hz
  interval_cases x <;> interval_cases y <;> interval_cases z <;> revert hxy hxz hyz <;> decide

theorem build_cba (x y z : Int) (hx : 1 ≤ x ∧ x ≤ 4) (hy : 1 ≤ y ∧ y ≤ 4)
    (hz : 1 ≤ z ∧ z ≤ 4) (hxy : x ≠ y) (hxz : x ≠ z) (hyz : y ≠ z) :
    (((⟨none, none, none, none⟩ : Stations).set! x (some .c)).set! y (some .b)).set! z (some .a)
      = mkStations z y x := by
  obtain ⟨hx1, hx2⟩ := hx
  obtain ⟨hy1, hy2⟩ := hy
  obtain ⟨hz1, hz2⟩ := hz
  interval_cases x <;> interval_cases y <;> interval_cases z <;> revert hxy hxz hyz <;> decide

theorem keys3_perm (k1 k2 k3 : String) (hnd : ([k1, k2, k3] : List String).Nodup)
    (h1 : k1 = "a" ∨ k1 = "b" ∨ k1 = "c") (h2 : k2 = "a" ∨ k2 = "b" ∨ k2 = "c")
    (h3 : k3 = "a" ∨ k3 = "b" ∨ k3 = "c") :
    (k1 = "a" ∧ k2 = "b" ∧ k3 = "c") ∨ (k1 = "a" ∧ k2 = "c" ∧ k3 = "b") ∨
    (k1 = "b" ∧ k2 = "a" ∧ k3 = "c") ∨ (k1 = "b" ∧ k2 = "c" ∧ k3 = "a") ∨
    (k1 = "c" ∧ k2 = "a" ∧ k3 = "b") ∨ (k1 = "c" ∧ k2 = "b" ∧ k3 = "a") := by
  rcases h1 with rfl | rfl | rfl <;> rcases h2 with rfl | rfl | rfl <;>
    rcases h3 with rfl | rfl | rfl <;> simp_all

theorem fold3_placed (base : SystemState) (hbs : base.stations = ⟨none, none, none, none⟩)
    (x y z : Int) (hx : 1 ≤ x ∧ x ≤ 4) (hy : 1 ≤ y ∧ y ≤ 4) (hz : 1 ≤ z ∧ z ≤ 4)
    (hxy : x ≠ y) (hxz : x ≠ z) (hyz : y ≠ z)
    (k1 k2 k3 : String) (u v w : VId)
    (hk1 : toVId k1 = some u) (hk2 : toVId k2 = some v) (hk3 : toVId k3 = some w)
    (huv : u ≠ v) (huw : u ≠ w) (hvw : v ≠ w) :
    WellPlaced ([(k1, x), (k2, y), (k3, z)].foldl assignPos base) ∧
    (∀ vv, (([(k1, x), (k2, y), (k3, z)].foldl assignPos base).getV vv).status
      = VehicleStatus.idle) ∧
    ([(k1, x), (k2, y), (k3, z)].foldl assignPos base).next_command_id
      = base.next_command_id := by
  simp only [List.foldl, assignPos, hk1, hk2, hk3]
  cases u <;> cases v <;> cases w <;>
    try (first | exact absurd rfl huv | exact absurd rfl huw | exact absurd rfl hvw)
  · refine ⟨⟨x, y, z, ?_, ?_, ?_, hx, hy, hz, hxy, hxz, hyz, ?_⟩, ?_, ?_⟩
    · simp [SystemState.setV, SystemState.getV]
    · simp [SystemState.setV, SystemState.getV]
    · simp [SystemState.setV, SystemState.getV]
    · simp only [SystemState.setV, SystemState.getV]
      rw [hbs]
      exact build_abc x y z hx hy hz hxy hxz hyz
    · intro vv
      cases vv <;> simp [SystemState.setV, SystemState.getV]
    · rfl
  · refine ⟨⟨x, z, y, ?_, ?_, ?_, hx, hz, hy, hxz, hxy, (Ne.symm hyz), ?_⟩, ?_, ?_⟩
    · simp [SystemState.setV, SystemState.getV]
    · simp [SystemState.setV, SystemState.getV]
    · simp [SystemState.setV, SystemState.getV]
    · simp only [SystemState.setV, SystemState.getV]
      rw [hbs]
      exact build_acb x y z hx hy hz hxy hxz hyz
    · intro vv
      cases vv <;> simp [SystemState.setV, SystemState.getV]
    · rfl
  · refine ⟨⟨y, x, z, ?_, ?_, ?_, hy, hx, hz, (Ne.symm hxy), hyz, hxz, ?_⟩, ?_, ?_⟩
    · simp [SystemState.setV, SystemState.getV]
    · simp [SystemState.setV, SystemState.getV]
    · simp [SystemState.setV, SystemState.getV]
    · simp only [SystemState.setV, SystemState.getV]
      rw [hbs]
      exact build_bac x y z hx hy hz hxy hxz hyz
    · intro vv
      cases vv <;> simp [SystemState.setV, SystemState.getV]
    · rfl
  · refine ⟨⟨z, x, y, ?_, ?_, ?_, hz, hx, hy, (Ne.symm hxz), (Ne.symm hyz), hxy, ?_⟩, ?_, ?_⟩
    · simp [SystemState.setV, SystemState.getV]
    · simp [SystemState.setV, SystemState.getV]
    · simp [SystemState.setV, SystemState.getV]
    · simp only [SystemState.setV, SystemState.getV]
      rw [hbs]
      exact build_bca x y z hx hy hz hxy hxz hyz
    · intro vv
      cases vv <;> simp [SystemState.setV, SystemState.getV]
    · rfl
  · refine ⟨⟨y, z, x, ?_, ?_, ?_, hy, hz, hx, hyz, (Ne.symm hxy), (Ne.symm hxz), ?_⟩, ?_, ?_⟩
    · simp [SystemState.setV, SystemState.getV]
    · simp [SystemState.setV, SystemState.getV]
    · simp [SystemState.setV, SystemState.getV]
    · simp only [SystemState.setV, SystemState.getV]
      rw [hbs]
      exact build_cab x y z hx hy hz hxy hxz hyz
    · intro vv
      cases vv <;> simp [SystemState.setV, SystemState.getV]
    · rfl
  · refine ⟨⟨z, y, x, ?_, ?_, ?_, hz, hy, hx, (Ne.symm hyz), (Ne.symm hxz), (Ne.symm hxy), ?_⟩, ?_, ?_⟩
    · simp [SystemState.setV, SystemState.getV]
    · simp [SystemState.setV, SystemState.getV]
    · simp [SystemState.setV, SystemState.getV]
    · simp only [SystemState.setV, SystemState.getV]
      rw [hbs]
      exact build_cba x y z hx hy hz hxy hxz hyz
    · intro vv
      cases vv <;> simp [SystemState.setV, SystemState.getV]
    · rfl

theorem init_success (st st' : SystemState) (ps : List (String × Int))
    (hnd : (ps.map Prod.fst).Nodup)
    (h : init_system st ps = (true, st')) :
    WellPlaced st' ∧ st'.initialized = true ∧ st'.pending_calls = [] ∧
    st'.next_command_id = st.next_command_id ∧
    (∀ v, (st'.getV v).status = VehicleStatus.idle) := by
  unfold init_system at h
  cases hke : setEqB (ps.map Prod.fst) ["a", "b", "c"] with
  | false =>
    rw [hke] at h
    simp at h
  | true =>
  cases hall : ps.all (fun p => [(1 : Int), 2, 3, 4].contains p.2) with
  | false =>
    rw [hke, hall] at h
    simp at h
  | true =>
  rw [hke, hall] at h
  simp only [Bool.not_true, Bool.false_eq_true, if_false] at h
  by_cases hdd : (ps.map Prod.snd).dedup.length = (ps.map Prod.snd).length
  case neg =>
    rw [if_pos hdd] at h
    simp at h
  case pos =>
  rw [if_neg (fun hcon => hcon hdd)] at h
  simp only [Prod.mk.injEq, true_and] at h
  subst h
  unfold setEqB at hke
  rw [Bool.and_eq_true] at hke
  obtain ⟨hke1, hke2⟩ := hke
  have hsub : ∀ x ∈ ps.map Prod.fst, x ∈ (["a", "b", "c"] : List String) := by
    intro k hk
    have := List.all_eq_true.mp hke1 k hk
    simpa using this
  have hsup : ∀ k ∈ (["a", "b", "c"] : List String), k ∈ ps.map Prod.fst := by
    intro k hk
    have := List.all_eq_true.mp hke2 k hk
    simpa using this
  have hlen3 : (ps.map Prod.fst).length = 3 := by
    refine Nat.le_antisymm ?_ ?_
    · exact (hnd.subperm fun a ha => hsub a ha).length_le
    · exact (((show (["a", "b", "c"] : List String).Nodup by decide).subperm
        fun a ha => hsup a ha).length_le)
  obtain ⟨p1, p2, p3, rfl⟩ : ∃ q1 q2 q3, ps = [q1, q2, q3] := by
    rcases ps with _ | ⟨a1, _ | ⟨a2, _ | ⟨a3, _ | ⟨a4, r⟩⟩⟩⟩
    · simp at hlen3
    · simp at hlen3
    · simp at hlen3
    · exact ⟨a1, a2, a3, rfl⟩
    · simp at hlen3
  obtain ⟨k1, x⟩ := p1
  obtain ⟨k2, y⟩ := p2
  obtain ⟨k3, z⟩ := p3
  simp only [List.map_cons, List.map_nil] at hnd
  have h1 : k1 = "a" ∨ k1 = "b" ∨ k1 = "c" := by simpa using hsub k1 (by simp)
  have h2 : k2 = "a" ∨ k2 = "b" ∨ k2 = "c" := by simpa using hsub k2 (by simp)
  have h3 : k3 = "a" ∨ k3 = "b" ∨ k3 = "c" := by simpa using hsub k3 (by simp)
  have hvx : 1 ≤ x ∧ x ≤ 4 := by
    have := List.all_eq_true.mp hall (k1, x) (by simp)
    simp at this
    omega
  have hvy : 1 ≤ y ∧ y ≤ 4 := by
    have := List.all_eq_true.mp hall (k2, y) (by simp)
    simp at this
    omega
  have hvz : 1 ≤ z ∧ z ≤ 4 := by
    have := List.all_eq_true.mp hall (k3, z) (by simp)
    simp at this
    omega
  have hvnd : ([x, y, z] : List Int).Nodup := by
    have hdl : ([x, y, z] : List Int).dedup.length = ([x, y, z] : List Int).length := by
      simpa using hdd
    exact (List.dedup_sublist _).eq_of_length hdl ▸ List.nodup_dedup _
  have hdist : x ≠ y ∧ x ≠ z ∧ y ≠ z := by
    simp [List.nodup_cons] at hvnd
    tauto
  obtain ⟨hxy, hxz, hyz⟩ := hdist
  have hperm := keys3_perm k1 k2 k3 hnd h1 h2 h3
  rcases hperm with hq | hq | hq | hq | hq | hq <;>
    obtain ⟨rfl, rfl, rfl⟩ := hq
  · obtain ⟨hwp, hstat, hncid⟩ := fold3_placed { st with stations := ⟨none, none, none, none⟩ }
      rfl x y z hvx hvy hvz hxy hxz hyz "a" "b" "c" .a .b .c rfl rfl rfl
      (by decide) (by decide) (by decide)
    obtain ⟨sa, sb, sc, hp⟩ := hwp
    refine ⟨⟨sa, sb, sc, hp⟩, rfl, rfl, hncid, ?_⟩
    intro v
    cases v
    · exact hstat .a
    · exact hstat .b
    · exact hstat .c
  · obtain ⟨hwp, hstat, hncid⟩ := fold3_placed { st with stations := ⟨none, none, none, none⟩ }
      rfl x y z hvx hvy hvz hxy hxz hyz "a" "c" "b" .a .c .b rfl rfl rfl
      (by decide) (by decide) (by decide)
    obtain ⟨sa, sb, sc, hp⟩ := hwp
    refine ⟨⟨sa, sb, sc, hp⟩, rfl, rfl, hncid, ?_⟩
    intro v
    cases v
    · exact hstat .a
    · exact hstat .b
    · exact hstat .c
  · obtain ⟨hwp, hstat, hncid⟩ := fold3_placed { st with stations := ⟨none, none, none, none⟩ }
      rfl x y z hvx hvy hvz hxy hxz hyz "b" "a" "c" .b .a .c rfl rfl rfl
      (by decide) (by decide) (by decide)
    obtain ⟨sa, sb, sc, hp⟩ := hwp
    refine ⟨⟨sa, sb, sc, hp⟩, rfl, rfl, hncid, ?_⟩
    intro v
    cases v
    · exact hstat .a
    · exact hstat .b
    · exact hstat .c
  · obtain ⟨hwp, hstat, hncid⟩ := fold3_placed { st with stations := ⟨none, none, none, none⟩ }
      rfl x y z hvx hvy hvz hxy hxz hyz "b" "c" "a" .b .c .a rfl rfl rfl
      (by decide) (by decide) (by decide)
    obtain ⟨sa, sb, sc, hp⟩ := hwp
    refine ⟨⟨sa, sb, sc, hp⟩, rfl, rfl, hncid, ?_⟩
    intro v
    cases v
    · exact hstat .a
    · exact hstat .b
    · exact hstat .c
  · obtain ⟨hwp, hstat, hncid⟩ := fold3_placed { st with stations := ⟨none, none, none, none⟩ }
      rfl x y z hvx hvy hvz hxy hxz hyz "c" "a" "b" .c .a .b rfl rfl rfl
      (by decide) (by decide) (by decide)
    obtain ⟨sa, sb, sc, hp⟩ := hwp
    refine ⟨⟨sa, sb, sc, hp⟩, rfl, rfl, hncid, ?_⟩
    intro v
    cases v
    · exact hstat .a
    · exact hstat .b
    · exact hstat .c
  · obtain ⟨hwp, hstat, hncid⟩ := fold3_placed { st with stations := ⟨none, none, none, none⟩ }
      rfl x y z hvx hvy hvz hxy hxz hyz "c" "b" "a" .c .b .a rfl rfl rfl
      (by decide) (by decide) (by decide)
    obtain ⟨sa, sb, sc, hp⟩ := hwp
    refine ⟨⟨sa, sb, sc, hp⟩, rfl, rfl, hncid, ?_⟩
    intro v
    cases v
    · exact hstat .a
    · exact hstat .b
    · exact hstat .c

/-! Section: Effect of an arrived report on a consistent occupancy map -/

theorem set_move_a (sa sb sc res : Int) (ha : 1 ≤ sa ∧ sa ≤ 4) (hb : 1 ≤ sb ∧ sb ≤ 4)
    (hc : 1 ≤ sc ∧ sc ≤ 4) (hab : sa ≠ sb) (hac : sa ≠ sc) (hbc : sb ≠ sc)
    (hres : 1 ≤ res ∧ res ≤ 4)
    (hfree : res = sa ∨ (res ≠ sa ∧ res ≠ sb ∧ res ≠ sc)) :
    ((mkStations sa sb sc).set! sa none).set! res (some .a) = mkStations res sb sc := by
  obtain ⟨ha1, ha2⟩ := ha
  obtain ⟨hb1, hb2⟩ := hb
  obtain ⟨hc1, hc2⟩ := hc
  obtain ⟨hr1, hr2⟩ := hres
  interval_cases sa <;> interval_cases sb <;> interval_cases sc <;> interval_cases res <;>
    revert hab hac hbc hfree <;> decide

theorem set_move_b (sa sb sc res : Int) (ha : 1 ≤ sa ∧ sa ≤ 4) (hb : 1 ≤ sb ∧ sb ≤ 4)
    (hc : 1 ≤ sc ∧ sc ≤ 4) (hab : sa ≠ sb) (hac : sa ≠ sc) (hbc : sb ≠ sc)
    (hres : 1 ≤ res ∧ res ≤ 4)
    (hfree : res = sb ∨ (res ≠ sa ∧ res ≠ sb ∧ res ≠ sc)) :
    ((mkStations sa sb sc).set! sb none).set! res (some .b) = mkStations sa res sc := by
  obtain ⟨ha1, ha2⟩ := ha
  obtain ⟨hb1, hb2⟩ := hb
  obtain ⟨hc1, hc2⟩ := hc
  obtain ⟨hr1, hr2⟩ := hres
  interval_cases sa <;> interval_cases sb <;> interval_cases sc <;> interval_cases res <;>
    revert hab hac hbc hfree <;> decide

theorem set_move_c (sa sb sc res : Int) (ha : 1 ≤ sa ∧ sa ≤ 4) (hb : 1 ≤ sb ∧ sb ≤ 4)
    (hc : 1 ≤ sc ∧ sc ≤ 4) (hab : sa ≠ sb) (hac : sa ≠ sc) (hbc : sb ≠ sc)
    (hres : 1 ≤ res ∧ res ≤ 4)
    (hfree : res = sc ∨ (res ≠ sa ∧ res ≠ sb ∧ res ≠ sc)) :
    ((mkStations sa sb sc).set! sc none).set! res (some .c) = mkStations sa sb res := by
  obtain ⟨ha1, ha2⟩ := ha
  obtain ⟨hb1, hb2⟩ := hb
  obtain ⟨hc1, hc2⟩ := hc
  obtain ⟨hr1, hr2⟩ := hres
  interval_cases sa <;> interval_cases sb <;> interval_cases sc <;> interval_cases res <;>
    revert hab hac hbc hfree <;> decide

theorem handle_report_good (st : SystemState) (v : VId) (r : VehicleReport)
    (sa sb sc : Int) (hp : Placed st sa sb sc) (hev : r.event = .arrived)
    (hres : 1 ≤ resolved r ∧ resolved r ≤ 4)
    (hfree : st.stations.occ (resolved r) = none ∨ st.stations.occ (resolved r) = some v) :
    ∃ st', handle_report st v r = (.ok true, st') ∧ WellPlaced st' ∧
      st'.initialized = st.initialized ∧ st'.next_command_id = st.next_command_id := by
  obtain ⟨hva, hvb, hvc, hra, hrb, hrc, hab, hac, hbc, hstm⟩ := hp
  cases v with
  | a =>
    have hfree' : resolved r = sa ∨
        (resolved r ≠ sa ∧ resolved r ≠ sb ∧ resolved r ≠ sc) := by
      rw [hstm] at hfree
      rcases hfree with hn | hs
      · exact Or.inr ((occ_mk_none_iff sa sb sc _ hres).mp hn)
      · exact Or.inl (occ_mk_eq_a sa sb sc _ hs)
    have h0 : sa ≠ 0 := by omega
    have hs1 := set?_eq_some_of_range st.stations sa none hra.1 hra.2
    have hs2 := set?_eq_some_of_range (st.stations.set! sa none) (resolved r)
      (some VId.a) hres.1 hres.2
    refine ⟨{ (st.setV VId.a ({ st.getV VId.a with current_station := some (resolved r), status := VehicleStatus.idle })) with stations := (st.stations.set! sa none).set! (resolved r) (some VId.a), pending_calls := removeFirstCall st.pending_calls VId.a (resolved r) }, ?_, ?_, ?_, ?_⟩
    · simp only [handle_report, handleArrivedSet, hev, SystemState.getV, hva,
        setV_stations, hs1, hs2, if_pos h0]
      rfl
    · refine ⟨resolved r, sb, sc, ?_, ?_, ?_, hres, hrb, hrc, ?_, ?_, hbc, ?_⟩
      · simp [SystemState.setV]
      · simp [SystemState.setV]
        exact hvb
      · simp [SystemState.setV]
        exact hvc
      · rcases hfree' with h | h
        · rw [h]
          exact hab
        · exact h.2.1
      · rcases hfree' with h | h
        · rw [h]
          exact hac
        · exact h.2.2
      · simp only [SystemState.setV]
        rw [hstm]
        exact set_move_a sa sb sc (resolved r) hra hrb hrc hab hac hbc hres hfree'
    · simp [SystemState.setV]
    · simp [SystemState.setV]
  | b =>
    have hfree' : resolved r = sb ∨
        (resolved r ≠ sa ∧ resolved r ≠ sb ∧ resolved r ≠ sc) := by
      rw [hstm] at hfree
      rcases hfree with hn | hs
      · exact Or.inr ((occ_mk_none_iff sa sb sc _ hres).mp hn)
      · exact Or.inl (occ_mk_eq_b sa sb sc _ hs)
    have h0 : sb ≠ 0 := by omega
    have hs1 := set?_eq_some_of_range st.stations sb none hrb.1 hrb.2
    have hs2 := set?_eq_some_of_range (st.stations.set! sb none) (resolved r)
      (some VId.b) hres.1 hres.2
    refine ⟨{ (st.setV VId.b ({ st.getV VId.b with current_station := some (resolved r), status := VehicleStatus.idle })) with stations := (st.stations.set! sb none).set! (resolved r) (some VId.b), pending_calls := removeFirstCall st.pending_calls VId.b (resolved r) }, ?_, ?_, ?_, ?_⟩
    · simp only [handle_report, handleArrivedSet, hev, SystemState.getV, hvb,
        setV_stations, hs1, hs2, if_pos h0]
      rfl
    · refine ⟨sa, resolved r, sc, ?_, ?_, ?_, hra, hres, hrc, ?_, hac, ?_, ?_⟩
      · simp [SystemState.setV]
        exact hva
      · simp [SystemState.setV]
      · simp [SystemState.setV]
        exact hvc
      · rcases hfree' with h | h
        · rw [h]
          exact hab
        · exact Ne.symm h.1
      · rcases hfree' with h | h
        · rw [h]
          exact hbc
        · exact h.2.2
      · simp only [SystemState.setV]
        rw [hstm]
        exact set_move_b sa sb sc (resolved r) hra hrb hrc hab hac hbc hres hfree'
    · simp [SystemState.setV]
    · simp [SystemState.setV]
  | c =>
    have hfree' : resolved r = sc ∨
        (resolved r ≠ sa ∧ resolved r ≠ sb ∧ resolved r ≠ sc) := by
      rw [hstm] at hfree
      rcases hfree with hn | hs
      · exact Or.inr ((occ_mk_none_iff sa sb sc _ hres).mp hn)
      · exact Or.inl (occ_mk_eq_c sa sb sc _ hs)
    have h0 : sc ≠ 0 := by omega
    have hs1 := set?_eq_some_of_range st.stations sc none hrc.1 hrc.2
    have hs2 := set?_eq_some_of_range (st.stations.set! sc none) (resolved r)
      (some VId.c) hres.1 hres.2
    refine ⟨{ (st.setV VId.c ({ st.getV VId.c with current_station := some (resolved r), status := VehicleStatus.idle })) with stations := (st.stations.set! sc none).set! (resolved r) (some VId.c), pending_calls := removeFirstCall st.pending_calls VId.c (resolved r) }, ?_, ?_, ?_, ?_⟩
    · simp only [handle_report, handleArrivedSet, hev, SystemState.getV, hvc,
        setV_stations, hs1, hs2, if_pos h0]
      rfl
    · refine ⟨sa, sb, resolved r, ?_, ?_, ?_, hra, hrb, hres, hab, ?_, ?_, ?_⟩
      · simp [SystemState.setV]
        exact hva
      · simp [SystemState.setV]
        exact hvb
      · simp [SystemState.setV]
      · rcases hfree' with h | h
        · rw [h]
          exact hac
        · exact Ne.symm h.1
      · rcases hfree' with h | h
        · rw [h]
          exact hbc
        · exact Ne.symm h.2.1
      · simp only [SystemState.setV]
        rw [hstm]
        exact set_move_c sa sb sc (resolved r) hra hrb hrc hab hac hbc hres hfree'
    · simp [SystemState.setV]
    · simp [SystemState.setV]

/-! Section: Frame lemmas: which parts of the state each operation can touch -/

theorem add_call_frame (st : SystemState) (v : VId) (t : Int) :
    ∃ q, (add_call st v t).2 = { st with pending_calls := q } := by
  unfold add_call
  split_ifs <;> exact ⟨_, rfl⟩

theorem requestMove_frame (st : SystemState) (v : VId) (t : Int) :
    ∃ q, (requestMove st v t).2 = { st with pending_calls := q } := by
  unfold requestMove
  split_ifs
  · exact ⟨st.pending_calls, rfl⟩
  · simpa using add_call_frame st v t

theorem get_command_frame (fuel : Nat) (st : SystemState) (vid : VId) :
    (get_command fuel st vid).2.stations = st.stations ∧
    (get_command fuel st vid).2.initialized = st.initialized ∧
    (∀ w, ((get_command fuel st vid).2.getV w).current_station
      = (st.getV w).current_station) := by
  have hmint : ∀ (s : SystemState) (m : Move),
      (mintResp s vid m).2.stations = s.stations ∧
      (mintResp s vid m).2.initialized = s.initialized ∧
      ∀ w, ((mintResp s vid m).2.getV w).current_station = (s.getV w).current_station := by
    intro s m
    refine ⟨by rw [mintResp, setV_stations], by rw [mintResp, setV_initialized], ?_⟩
    intro w
    by_cases hw : w = vid
    · subst hw
      rw [mintResp, getV_setV_self]
      cases w <;> rfl
    · rw [mintResp, getV_setV_ne _ _ _ _ hw]
      cases w <;> rfl
  unfold get_command
  split_ifs with h
  · exact ⟨rfl, rfl, fun w => rfl⟩
  · cases hrep : repollResp st vid with
    | some resp => exact ⟨rfl, rfl, fun w => rfl⟩
    | none =>
      cases hnm : (calcNextMove fuel st).1 with
      | none => exact ⟨rfl, rfl, fun w => by cases w <;> rfl⟩
      | some mo =>
        cases mo with
        | none => exact ⟨rfl, rfl, fun w => by cases w <;> rfl⟩
        | some m =>
          dsimp only
          split_ifs with hm
          · obtain ⟨h1, h2, h3⟩ := hmint (calcNextMove fuel st).2 m
            refine ⟨h1.trans rfl, h2.trans rfl, fun w => (h3 w).trans (by cases w <;> rfl)⟩
          · exact ⟨rfl, rfl, fun w => by cases w <;> rfl⟩

theorem placed_frame (st st' : SystemState) (sa sb sc : Int) (hp : Placed st sa sb sc)
    (hstm : st'.stations = st.stations)
    (hcur : ∀ w, (st'.getV w).current_station = (st.getV w).current_station) :
    Placed st' sa sb sc := by
  obtain ⟨hva, hvb, hvc, hra, hrb, hrc, hab, hac, hbc, hst⟩ := hp
  exact ⟨(hcur .a).trans hva, (hcur .b).trans hvb, (hcur .c).trans hvc,
    hra, hrb, hrc, hab, hac, hbc, hstm.trans hst⟩

theorem reachG_wellPlaced (st : SystemState) (h : ReachG st) :
    st.initialized = true ∧ WellPlaced st := by
  induction h with
  | init ps st' hnd heq =>
    have := init_success initState st' ps hnd heq
    exact ⟨this.2.1, this.1⟩
  | call st v t res st' hr heq ih =>
    obtain ⟨q, hq⟩ := requestMove_frame st v t
    have hst' : st' = { st with pending_calls := q } := by
      rw [← hq, heq]
    subst hst'
    obtain ⟨hini, sa, sb, sc, hp⟩ := ih
    exact ⟨hini, sa, sb, sc, hp⟩
  | cmd st fuel v res st' hr heq ih =>
    obtain ⟨hstm, hini, hcur⟩ := get_command_frame fuel st v
    rw [heq] at hstm hini hcur
    obtain ⟨hini0, sa, sb, sc, hp⟩ := ih
    exact ⟨hini.trans hini0, sa, sb, sc, placed_frame st st' sa sb sc hp hstm hcur⟩
  | report st v r b st' hr hgood heq ih =>
    obtain ⟨hini0, sa, sb, sc, hp⟩ := ih
    cases hev : r.event with
    | arrived =>
      obtain ⟨hr1, hr2, hfree⟩ := hgood hev
      obtain ⟨st'', heq', hwp, hini', hncid'⟩ :=
        handle_report_good st v r sa sb sc hp hev ⟨hr1, hr2⟩ hfree
      rw [heq] at heq'
      have hsteq : st' = st'' := congrArg Prod.snd heq'
      rw [hsteq]
      exact ⟨hini'.trans hini0, hwp⟩
    | error =>
      have heq' : handle_report st v r
          = (.ok true, st.setV v { st.getV v with status := .idle }) := by
        unfold handle_report
        rw [hev]
      rw [heq] at heq'
      injection heq' with h1 h2
      subst h2
      refine ⟨by rw [setV_initialized]; exact hini0, sa, sb, sc, ?_⟩
      refine placed_frame st _ sa sb sc hp (setV_stations st v _) ?_
      intro w
      by_cases hw : w = v
      · subst hw
        rw [getV_setV_self]
      · rw [getV_setV_ne _ _ _ _ hw]

theorem wellPlaced_occupancy (st : SystemState) (h : WellPlaced st) :
    st.stations.occCount = 3 ∧
    ∀ k w, st.stations.occ k = some w → (st.getV w).current_station = some k := by
  obtain ⟨sa, sb, sc, hva, hvb, hvc, hra, hrb, hrc, hab, hac, hbc, hstm⟩ := h
  constructor
  · rw [hstm]
    exact occCount_mk sa sb sc hra hrb hrc hab hac hbc
  · intro k w hk
    rw [hstm] at hk
    cases w with
    | a =>
      rw [occ_mk_eq_a sa sb sc k hk]
      exact hva
    | b =>
      rw [occ_mk_eq_b sa sb sc k hk]
      exact hvb
    | c =>
      rw [occ_mk_eq_c sa sb sc k hk]
      exact hvc

/-! Section: Statuses and command ids across the operations -/

theorem getV_setV_split (st : SystemState) (v : VId) (Y : VehicleState) (w : VId) :
    (st.setV v Y).getV w = if w = v then Y else st.getV w := by
  by_cases hw : w = v
  · subst hw
    rw [getV_setV_self, if_pos rfl]
  · rw [getV_setV_ne _ _ _ _ hw, if_neg hw]

theorem handle_report_veh (st : SystemState) (v : VId) (r : VehicleReport) :
    (∀ w, ((handle_report st v r).2.getV w).status
        = (if w = v then VehicleStatus.idle else (st.getV w).status)) ∧
    (∀ w, ((handle_report st v r).2.getV w).current_command_id
        = (st.getV w).current_command_id) ∧
    (handle_report st v r).2.next_command_id = st.next_command_id := by
  have key : ∀ (s2 : SystemState),
      (∀ w, (handleArrivedSet s2 v (resolved r)).2.getV w = s2.getV w) ∧
      (handleArrivedSet s2 v (resolved r)).2.next_command_id = s2.next_command_id := by
    intro s2
    unfold handleArrivedSet
    cases hset : s2.stations.set? (resolved r) (some v) <;> dsimp only
    · exact ⟨fun w => rfl, rfl⟩
    · exact ⟨fun w => by cases w <;> rfl, rfl⟩
  unfold handle_report
  cases hev : r.event with
  | arrived =>
    dsimp only
    cases holdst : (st.getV v).current_station with
    | none =>
      dsimp only
      have hS := key (st.setV v { st.getV v with current_station := some (resolved r), status := VehicleStatus.idle })
      refine ⟨fun w => ?_, fun w => ?_, ?_⟩
      · rw [hS.1 w, getV_setV_split]
        by_cases hw : w = v <;> simp [hw]
      · rw [hS.1 w, getV_setV_split]
        by_cases hw : w = v <;> simp [hw]
      · rw [hS.2, setV_ncid]
    | some o =>
      dsimp only
      split_ifs with h0
      · cases hset : (st.setV v { st.getV v with current_station := some (resolved r), status := VehicleStatus.idle }).stations.set? o none with
        | none =>
          dsimp only
          refine ⟨fun w => ?_, fun w => ?_, ?_⟩
          · rw [getV_setV_split]
            by_cases hw : w = v <;> simp [hw]
          · rw [getV_setV_split]
            by_cases hw : w = v <;> simp [hw]
          · rw [setV_ncid]
        | some sm =>
          dsimp only
          have hS := key { (st.setV v { st.getV v with current_station := some (resolved r), status := VehicleStatus.idle }) with stations := sm }
          refine ⟨fun w => ?_, fun w => ?_, ?_⟩
          · rw [hS.1 w, getV_upd_stations, getV_setV_split]
            by_cases hw : w = v <;> simp [hw]
          · rw [hS.1 w, getV_upd_stations, getV_setV_split]
            by_cases hw : w = v <;> simp [hw]
          · rw [hS.2]
            rw [show ∀ (s : SystemState) (sm : Stations),
              ({ s with stations := sm } : SystemState).next_command_id
                = s.next_command_id from fun _ _ => rfl]
            rw [setV_ncid]
      · have hS := key (st.setV v { st.getV v with current_station := some (resolved r), status := VehicleStatus.idle })
        refine ⟨fun w => ?_, fun w => ?_, ?_⟩
        · rw [hS.1 w, getV_setV_split]
          by_cases hw : w = v <;> simp [hw]
        · rw [hS.1 w, getV_setV_split]
          by_cases hw : w = v <;> simp [hw]
        · rw [hS.2, setV_ncid]
  | error =>
    dsimp only
    refine ⟨fun w => ?_, fun w => ?_, ?_⟩
    · rw [getV_setV_split]
      by_cases hw : w = v <;> simp [hw]
    · rw [getV_setV_split]
      by_cases hw : w = v <;> simp [hw]
    · rw [setV_ncid]

theorem get_command_cmdInv (fuel : Nat) (st : SystemState) (vid : VId)
    (h : CmdInv st) : CmdInv (get_command fuel st vid).2 := by
  obtain ⟨h1, h2⟩ := h
  unfold get_command
  split_ifs with hi
  · exact ⟨h1, h2⟩
  · cases hrep : repollResp st vid with
    | some resp => exact ⟨h1, h2⟩
    | none =>
      have hC : CmdInv (calcNextMove fuel st).2 := ⟨h1, fun w hw => h2 w hw⟩
      cases hnm : (calcNextMove fuel st).1 with
      | none => exact hC
      | some mo =>
        cases mo with
        | none => exact hC
        | some m =>
          dsimp only
          split_ifs with hm
          · refine ⟨?_, ?_⟩
            · rw [mintResp, setV_ncid]
              exact Nat.le_add_left 1 _
            · intro w hw
              rw [mintResp, getV_setV_split]
              by_cases hww : w = vid
              · simp only [hww, if_pos rfl]
                simp [truthyCid]
                have heqn : (calcNextMove fuel st).2.next_command_id
                    = st.next_command_id := rfl
                omega
              · rw [if_neg hww]
                rw [mintResp, getV_setV_split, if_neg hww] at hw
                exact hC.2 w hw
          · exact hC

theorem reach_cmdInv (st : SystemState) (h : Reach st) : CmdInv st := by
  induction h with
  | init ps st' hnd heq =>
    have hsucc := init_success initState st' ps hnd heq
    refine ⟨?_, fun v hv => ?_⟩
    · rw [hsucc.2.2.2.1]
      exact Nat.le_refl 1
    · rw [hsucc.2.2.2.2 v] at hv
      exact VehicleStatus.noConfusion hv
  | call st v t res st' hr heq ih =>
    obtain ⟨q, hq⟩ := requestMove_frame st v t
    have hst' : st' = { st with pending_calls := q } := by rw [← hq, heq]
    subst hst'
    exact ⟨ih.1, fun w hw => ih.2 w hw⟩
  | cmd st fuel v res st' hr heq ih =>
    have hst' : st' = (get_command fuel st v).2 := (congrArg Prod.snd heq).symm
    subst hst'
    exact get_command_cmdInv fuel st v ih
  | report st v r res st' hr heq ih =>
    have hst' : st' = (handle_report st v r).2 := (congrArg Prod.snd heq).symm
    subst hst'
    obtain ⟨hst, hcid, hncid⟩ := handle_report_veh st v r
    refine ⟨by rw [hncid]; exact ih.1, fun w hw => ?_⟩
    rw [hst w] at hw
    by_cases hwv : w = v
    · rw [if_pos hwv] at hw
      exact VehicleStatus.noConfusion hw
    · rw [if_neg hwv] at hw
      rw [hcid w]
      exact ih.2 w hw

/-! Section: Success analysis of handleArrivedSet and further station lemmas -/

theorem set?_occ (s s' : Stations) (k : Int) (v : Option VId)
    (h : s.set? k v = some s') : s'.occ k = v := by
  unfold Stations.set? at h
  split_ifs at h with h1 h2 h3 h4
  · injection h with h'
    subst h'
    simp [Stations.occ, Stations.get?, h1]
  · injection h with h'
    subst h'
    simp [Stations.occ, Stations.get?, h1, h2]
  · injection h with h'
    subst h'
    simp [Stations.occ, Stations.get?, h1, h2, h3]
  · injection h with h'
    subst h'
    simp [Stations.occ, Stations.get?, h1, h2, h3, h4]

theorem handleArrivedSet_ok (S : SystemState) (vid : VId) (actual : Int) (b : Bool)
    (st' : SystemState) (h : handleArrivedSet S vid actual = (.ok b, st')) :
    (∃ sm, S.stations.set? actual (some vid) = some sm ∧ st'.stations = sm) ∧
    (∀ w, st'.getV w = S.getV w) ∧
    st'.pending_calls = removeFirstCall S.pending_calls vid actual ∧
    st'.initialized = S.initialized ∧
    st'.next_command_id = S.next_command_id := by
  unfold handleArrivedSet at h
  cases hset : S.stations.set? actual (some vid) with
  | none =>
    rw [hset] at h
    dsimp only at h
    exact absurd (congrArg Prod.fst h) (by simp)
  | some sm =>
    rw [hset] at h
    dsimp only at h
    have hst : st' = { { S with stations := sm } with
      pending_calls := removeFirstCall S.pending_calls vid actual } :=
      (congrArg Prod.snd h).symm
    subst hst
    exact ⟨⟨sm, rfl, rfl⟩, fun w => by cases w <;> rfl, rfl, rfl, rfl⟩

/-- C3 (confirmed): for every known vehicle and every arrived report that the
scheduler processes successfully, the station written into the model (the
vehicle's `currentStation` and the occupancy entry claimed by the vehicle)
is the report's expected station whenever `pattern_confident` is false —
regardless of `detected_station` and of the `mismatch` flag — and the
detected station whenever `pattern_confident` is true. -/
theorem C3_mismatch_override (st st' : SystemState) (vid : VId) (r : VehicleReport)
    (b : Bool) (hev : r.event = ReportEvent.arrived)
    (h : handle_report st vid r = (.ok b, st')) :
    (st'.getV vid).current_station = some (resolved r) ∧
    st'.stations.occ (resolved r) = some vid ∧
    (r.pattern_confident = false → resolved r = r.expected_station) ∧
    (r.pattern_confident = true → resolved r = r.detected_station) := by
  have hdefs : (r.pattern_confident = false → resolved r = r.expected_station) ∧
      (r.pattern_confident = true → resolved r = r.detected_station) := by
    constructor <;> intro hc <;> simp [resolved, hc]
  unfold handle_report at h
  rw [hev] at h
  dsimp only at h
  cases holdst : (st.getV vid).current_station with
  | none =>
    rw [holdst] at h
    dsimp only at h
    obtain ⟨⟨sm, hset, hsm⟩, hgv, hpc, _, _⟩ := handleArrivedSet_ok _ vid _ b st' h
    refine ⟨?_, ?_, hdefs.1, hdefs.2⟩
    · rw [hgv vid, getV_setV_self]
    · rw [hsm]
      exact set?_occ _ _ _ _ hset
  | some o =>
    rw [holdst] at h
    dsimp only at h
    split_ifs at h with h0
    · cases hset1 : (st.setV vid { st.getV vid with current_station := some (resolved r), status := VehicleStatus.idle }).stations.set? o none with
      | none =>
        rw [hset1] at h
        dsimp only at h
        exact absurd (congrArg Prod.fst h) (by simp)
      | some sm1 =>
        rw [hset1] at h
        dsimp only at h
        obtain ⟨⟨sm, hset, hsm⟩, hgv, hpc, _, _⟩ := handleArrivedSet_ok _ vid _ b st' h
        refine ⟨?_, ?_, hdefs.1, hdefs.2⟩
        · rw [hgv vid, getV_upd_stations, getV_setV_self]
        · rw [hsm]
          exact set?_occ _ _ _ _ hset
    · obtain ⟨⟨sm, hset, hsm⟩, hgv, hpc, _, _⟩ := handleArrivedSet_ok _ vid _ b st' h
      refine ⟨?_, ?_, hdefs.1, hdefs.2⟩
      · rw [hgv vid, getV_setV_self]
      · rw [hsm]
        exact set?_occ _ _ _ _ hset

/-- C3 witness: a non-confident arrived report with mismatching detected
station 2 resolves to the expected station 4, which ends up both as vehicle
c's position and as the station occupied by c. -/
theorem C3_mismatch_override_witness :
    (((handle_report stA VId.c ⟨1, .arrived, 4, 2, false, true⟩).2).getV VId.c).current_station
      = some (resolved ⟨1, .arrived, 4, 2, false, true⟩) ∧
    ((handle_report stA VId.c ⟨1, .arrived, 4, 2, false, true⟩).2).stations.occ
      (resolved ⟨1, .arrived, 4, 2, false, true⟩) = some VId.c ∧
    ((⟨1, .arrived, 4, 2, false, true⟩ : VehicleReport).pattern_confident = false →
      resolved ⟨1, .arrived, 4, 2, false, true⟩
        = (⟨1, .arrived, 4, 2, false, true⟩ : VehicleReport).expected_station) ∧
    ((⟨1, .arrived, 4, 2, false, true⟩ : VehicleReport).pattern_confident = true →
      resolved ⟨1, .arrived, 4, 2, false, true⟩
        = (⟨1, .arrived, 4, 2, false, true⟩ : VehicleReport).detected_station) :=
  C3_mismatch_override stA _ VId.c ⟨1, .arrived, 4, 2, false, true⟩ true
    (by decide) (by decide)

/-! Section: Validation bridging lemmas for initialize and requestMove -/

theorem setEqB_iff (xs ys : List String) :
    setEqB xs ys = true ↔ ∀ k, (k ∈ xs ↔ k ∈ ys) := by
  unfold setEqB
  rw [Bool.and_eq_true, List.all_eq_true, List.all_eq_true]
  constructor
  · rintro ⟨h1, h2⟩ k
    constructor
    · intro hk
      simpa using h1 k hk
    · intro hk
      simpa using h2 k hk
  · intro h
    constructor
    · intro k hk
      simpa using (h k).mp hk
    · intro k hk
      simpa using (h k).mpr hk

theorem allRange_iff (ps : List (String × Int)) :
    (ps.all fun p => [(1 : Int), 2, 3, 4].contains p.2) = true ↔
      ∀ p ∈ ps, 1 ≤ p.2 ∧ p.2 ≤ 4 := by
  rw [List.all_eq_true]
  constructor
  · intro h p hp
    have := h p hp
    simp at this
    omega
  · intro h p hp
    have := h p hp
    simp
    omega

theorem dedupLen_iff (l : List Int) : l.dedup.length = l.length ↔ l.Nodup := by
  constructor
  · intro h
    exact (List.dedup_sublist l).eq_of_length h ▸ List.nodup_dedup l
  · intro h
    rw [h.dedup]

/-- C4 (confirmed): `initialize` fails whenever the key set differs from
`{"a","b","c"}`, or some station value is outside `1..4`, or two vehicles
map to the same station; in every such case it returns failure with the
model left exactly as it was (in particular still uninitialized if it was
uninitialized): validation happens before any mutation. -/
theorem C4_init_validation (st : SystemState) (ps : List (String × Int))
    (h : (¬ ∀ k, (k ∈ ps.map Prod.fst ↔ k ∈ (["a", "b", "c"] : List String))) ∨
         (∃ p ∈ ps, ¬(1 ≤ p.2 ∧ p.2 ≤ 4)) ∨
         ¬ (ps.map Prod.snd).Nodup) :
    init_system st ps = (false, st) := by
  unfold init_system
  cases hke : setEqB (ps.map Prod.fst) ["a", "b", "c"] with
  | false => simp [hke]
  | true =>
    have hkeys := (setEqB_iff _ _).mp hke
    cases hall : ps.all (fun p => [(1 : Int), 2, 3, 4].contains p.2) with
    | false => simp [hke, hall]
    | true =>
      have hrange := (allRange_iff _).mp hall
      rcases h with h1 | h2 | h3
      · exact absurd hkeys h1
      · obtain ⟨p, hp, hnb⟩ := h2
        exact absurd (hrange p hp) hnb
      · have hne : (ps.map Prod.snd).dedup.length ≠ (ps.map Prod.snd).length :=
          fun hEq => h3 ((dedupLen_iff _).mp hEq)
        have hne' : (ps.map Prod.snd).dedup.length ≠ ps.length := by simpa using hne
        simp [hke, hall, hne, hne']

/-- C4 witness: the spec's concrete example `{"a":1,"b":1,"c":2}` (duplicate
station) is rejected and the fresh model is left untouched, uninitialized. -/
theorem C4_init_validation_witness :
    init_system initState [("a", 1), ("b", 1), ("c", 2)] = (false, initState) ∧
    initState.initialized = false :=
  ⟨C4_init_validation initState _ (Or.inr (Or.inr (by decide))), by decide⟩

/-- C9 (confirmed): `requestMove` (the `/api/v1/call` endpoint, whose body
is validated by `models.CallRequest` before `add_call` runs) fails on a
target station outside `1..4` and leaves the whole model — in particular
the pending queue — unchanged. -/
theorem C9_invalid_target (st : SystemState) (v : VId) (t : Int)
    (_hinit : st.initialized = true) (h : t < 1 ∨ 4 < t) :
    requestMove st v t = (.invalidTarget, st) ∧
    (requestMove st v t).2.pending_calls = st.pending_calls := by
  have heq : requestMove st v t = (.invalidTarget, st) := by
    unfold requestMove
    rw [if_pos h]
  exact ⟨heq, by rw [heq]⟩

/-- C9 witness: at the initialized base state, requesting station 7 fails
and the queue is untouched. -/
theorem C9_invalid_target_witness :
    requestMove stA VId.a 7 = (.invalidTarget, stA) ∧
    (requestMove stA VId.a 7).2.pending_calls = stA.pending_calls :=
  C9_invalid_target stA VId.a 7 (by decide) (Or.inr (by decide))

/-- C10 (confirmed): an arrived report with `pattern_confident = true` and a
detected station outside the stations dict raises an uncaught `KeyError`
from the occupancy update, after the vehicle's `currentStation`, its
status, and the old station's occupancy have already been mutated — a
partially-mutated model escapes instead of a typed failure. -/
theorem C10_report_partial_mutation (st : SystemState) (vid : VId) (r : VehicleReport)
    (o : Int) (hev : r.event = ReportEvent.arrived) (hconf : r.pattern_confident = true)
    (hout : ¬(1 ≤ r.detected_station ∧ r.detected_station ≤ 4))
    (hold : (st.getV vid).current_station = some o) (ho : 1 ≤ o ∧ o ≤ 4) :
    ∃ e, handle_report st vid r = (.keyError, e) ∧
      (e.getV vid).current_station = some r.detected_station ∧
      (e.getV vid).status = VehicleStatus.idle ∧
      (e.getV vid).current_command_id = (st.getV vid).current_command_id ∧
      e.stations.occ o = none ∧
      (∀ k, k ≠ o → e.stations.occ k = st.stations.occ k) ∧
      e.pending_calls = st.pending_calls := by
  have hres : resolved r = r.detected_station := by simp [resolved, hconf]
  have h0 : o ≠ 0 := by omega
  have hs1 := set?_eq_some_of_range
    (st.setV vid { st.getV vid with current_station := some (resolved r), status := VehicleStatus.idle }).stations
    o none (by omega) (by omega)
  have hs2 : ((st.setV vid { st.getV vid with current_station := some (resolved r), status := VehicleStatus.idle }).stations.set! o none).set? (resolved r) (some vid) = none := by
    apply set?_eq_none_of_out
    rw [hres]
    exact hout
  refine ⟨{ (st.setV vid ({ st.getV vid with current_station := some (resolved r), status := VehicleStatus.idle })) with stations := (st.setV vid ({ st.getV vid with current_station := some (resolved r), status := VehicleStatus.idle })).stations.set! o none }, ?_, ?_, ?_, ?_, ?_, ?_, ?_⟩
  · unfold handle_report handleArrivedSet
    rw [hev]
    dsimp only
    rw [hold]
    dsimp only
    rw [if_pos h0, hs1]
    dsimp only
    rw [hs2]
  · rw [getV_upd_stations, getV_setV_self, hres]
  · rw [getV_upd_stations, getV_setV_self]
  · rw [getV_upd_stations, getV_setV_self]
  · rw [show (({ (st.setV vid ({ st.getV vid with current_station := some (resolved r), status := VehicleStatus.idle })) with stations := (st.setV vid ({ st.getV vid with current_station := some (resolved r), status := VehicleStatus.idle })).stations.set! o none } : SystemState).stations) = (st.setV vid ({ st.getV vid with current_station := some (resolved r), status := VehicleStatus.idle })).stations.set! o none from rfl]
    rw [setV_stations]
    exact occ_set!_self st.stations o none ho.1 ho.2
  · intro k hk
    rw [show (({ (st.setV vid ({ st.getV vid with current_station := some (resolved r), status := VehicleStatus.idle })) with stations := (st.setV vid ({ st.getV vid with current_station := some (resolved r), status := VehicleStatus.idle })).stations.set! o none } : SystemState).stations) = (st.setV vid ({ st.getV vid with current_station := some (resolved r), status := VehicleStatus.idle })).stations.set! o none from rfl]
    rw [setV_stations]
    exact occ_set!_ne st.stations o k none hk
  · rw [show (({ (st.setV vid ({ st.getV vid with current_station := some (resolved r), status := VehicleStatus.idle })) with stations := (st.setV vid ({ st.getV vid with current_station := some (resolved r), status := VehicleStatus.idle })).stations.set! o none } : SystemState).pending_calls) = (st.setV vid ({ st.getV vid with current_station := some (resolved r), status := VehicleStatus.idle })).pending_calls from rfl]
    rw [setV_pending]

/-- C10 witness: from the canonical initialized state, vehicle c reporting a
confident arrival at station 5 crashes with the model half-updated. -/
theorem C10_report_partial_mutation_witness :
    ∃ e, handle_report stA VId.c ⟨1, .arrived, 4, 5, true, true⟩ = (.keyError, e) ∧
      (e.getV VId.c).current_station = some 5 ∧
      (e.getV VId.c).status = VehicleStatus.idle ∧
      (e.getV VId.c).current_command_id = (stA.getV VId.c).current_command_id ∧
      e.stations.occ 3 = none ∧
      (∀ k, k ≠ 3 → e.stations.occ k = stA.stations.occ k) ∧
      e.pending_calls = stA.pending_calls :=
  C10_report_partial_mutation stA VId.c ⟨1, .arrived, 4, 5, true, true⟩ 3
    (by decide) (by decide) (by decide) (by decide) (by decide)

/-- C1 counterexample: after a successful Initialize, one completed arrived
report with `pattern_confident = true` and a detected station occupied by
another vehicle leaves a reachable state with only 2 occupied stations (not
K=3), and with station 2's occupant inconsistent with vehicle b's
`currentStation`. -/
theorem C1_counterexample :
    Reach stBad ∧ stBad.initialized = true ∧ stBad.stations.occCount = 2 ∧
    (stBad.getV VId.b).current_station = some 2 ∧ stBad.stations.occ 2 = some VId.a := by
  refine ⟨?_, by decide, by decide, by decide, by decide⟩
  exact Reach.report stA VId.a rBad (.ok true) stBad
    (Reach.init posABC stA (by decide) (by decide)) (by decide)

/-- C1 (corrected, amended): for every state reachable from a successful
Initialize by RequestMove, NextCommand and ReportArrival calls in which
every completed arrived report resolves (to the detected station when
confident, to the expected one otherwise) to a station that is in range and
is empty or the reporting vehicle's own at the time of the report, exactly
K=3 of the N=4 stations are occupied, the remaining one is not, and every
occupied station's occupant has `currentStation` equal to that station. -/
theorem C1_occupancy_good (st : SystemState) (h : ReachG st) :
    st.initialized = true ∧ st.stations.occCount = 3 ∧
    ∀ k w, st.stations.occ k = some w → (st.getV w).current_station = some k := by
  obtain ⟨hinit, hwp⟩ := reachG_wellPlaced st h
  obtain ⟨hc, hcons⟩ := wellPlaced_occupancy st hwp
  exact ⟨hinit, hc, hcons⟩

/-- C1 witness: the invariant holds at the state reached by initializing and
processing one good arrived report (vehicle c confidently arriving at its
expected next station 4). -/
theorem C1_occupancy_good_witness :
    (handle_report stA VId.c ⟨1, .arrived, 4, 4, true, false⟩).2.initialized = true ∧
    (handle_report stA VId.c ⟨1, .arrived, 4, 4, true, false⟩).2.stations.occCount = 3 ∧
    ∀ k w, (handle_report stA VId.c ⟨1, .arrived, 4, 4, true, false⟩).2.stations.occ k
        = some w →
      ((handle_report stA VId.c ⟨1, .arrived, 4, 4, true, false⟩).2.getV w).current_station
        = some k :=
  C1_occupancy_good _
    (ReachG.report stA VId.c ⟨1, .arrived, 4, 4, true, false⟩ true _
      (ReachG.init posABC stA (by decide) (by decide))
      (fun _ => by decide) (by decide))

/-- C2 counterexample: vehicle c is moving, yet polling it twice with no
intervening report returns two different freshly minted command ids (2 and
then 3) — the code re-issues the same id only when the moving vehicle also
has a pending request of its own, which a blocker moved out of the way does
not. -/
theorem C2_counterexample :
    Reach stC2m ∧ (stC2m.getV VId.c).status = VehicleStatus.moving ∧
    C2poll2.1 = .resp (some ⟨2, .forward, some 4⟩) ∧
    C2poll3.1 = .resp (some ⟨3, .forward, some 4⟩) := by
  refine ⟨?_, by decide, by decide, by decide⟩
  exact Reach.cmd stC2q 10 VId.c (.resp (some ⟨1, .forward, some 4⟩)) stC2m
    (Reach.call stA VId.a 3 (.ok true) stC2q
      (Reach.init posABC stA (by decide) (by decide)) (by decide))
    (by decide)

/-- C2 (corrected, amended): for every initialized state and every vehicle
that is moving with a truthy active command id and an outstanding pending
request with a truthy target, `nextCommand` re-issues exactly the current
command id with a forward action and the recomputed next station, leaves
the state unchanged, and therefore returns the same command id on any two
successive polls. -/
theorem C2_repoll_idempotent (st : SystemState) (v : VId) (f1 f2 : Nat)
    (hinit : st.initialized = true)
    (hmov : (st.getV v).status = VehicleStatus.moving)
    (hcid : truthyCid (st.getV v).current_command_id = true)
    (htgt : truthyTarget (findTarget st.pending_calls v) = true) :
    get_command f1 st v = (.resp (some ⟨(st.getV v).current_command_id.getD 0, .forward,
      some (getNextStation (st.getV v).current_station)⟩), st) ∧
    get_command f1 st v = get_command f2 st v := by
  have key : ∀ f : Nat, get_command f st v
      = (.resp (some ⟨(st.getV v).current_command_id.getD 0, .forward,
        some (getNextStation (st.getV v).current_station)⟩), st) := by
    intro f
    have hrep : repollResp st v = some ⟨(st.getV v).current_command_id.getD 0, .forward,
        some (getNextStation (st.getV v).current_station)⟩ := by
      unfold repollResp
      rw [if_pos ⟨hmov, hcid⟩, if_pos htgt]
    unfold get_command
    rw [hinit]
    simp only [Bool.not_true, Bool.false_eq_true, if_false]
    rw [hrep]
  exact ⟨key f1, (key f1).trans (key f2).symm⟩

/-- C2 witness: at `stC2w` the hypotheses hold and two successive polls with
different fuels both return command id 1 with expected station 4. -/
theorem C2_repoll_idempotent_witness :
    stC2w.initialized = true ∧ (stC2w.getV VId.c).status = VehicleStatus.moving ∧
    truthyCid (stC2w.getV VId.c).current_command_id = true ∧
    truthyTarget (findTarget stC2w.pending_calls VId.c) = true ∧
    get_command 5 stC2w VId.c = (.resp (some ⟨(stC2w.getV VId.c).current_command_id.getD 0,
      .forward, some (getNextStation (stC2w.getV VId.c).current_station)⟩), stC2w) ∧
    get_command 5 stC2w VId.c = get_command 7 stC2w VId.c :=
  ⟨by decide, by decide, by decide, by decide,
    (C2_repoll_idempotent stC2w VId.c 5 7 (by decide) (by decide) (by decide) (by decide)).1,
    (C2_repoll_idempotent stC2w VId.c 5 7 (by decide) (by decide) (by decide) (by decide)).2⟩

/-- C6 counterexample: on the cyclic occupancy map the blocking-resolution
recursion does not terminate within N hops and does not return a no-move
answer at any depth — the guard compares the blocker only against the
immediate vehicle, not the original one, so the recursion runs until
Python's recursion limit.  (`none` is fuel exhaustion; a returned "no
move" would be `some none`.) -/
theorem C6_counterexample :
    calcMoveFor 5 cycState VId.a = none ∧ calcMoveFor 100 cycState VId.a = none :=
  ⟨by decide, by decide⟩

/-- C6 (corrected, amended): on every state satisfying the mutual
vehicle/station consistency invariant the blocking-resolution chain
terminates within N=4 hops (fuel 4 already yields a definite answer). -/
theorem C6_terminates_consistent (st : SystemState) (sa sb sc : Int) (v : VId)
    (hp : Placed st sa sb sc) : (calcMoveFor 4 st v).isSome = true := by
  obtain ⟨hva, hvb, hvc, hra, hrb, hrc, hab, hac, hbc, hstm⟩ := hp
  obtain ⟨ha1, ha2⟩ := hra
  obtain ⟨hb1, hb2⟩ := hrb
  obtain ⟨hc1, hc2⟩ := hrc
  cases v <;> interval_cases sa <;> interval_cases sb <;> interval_cases sc <;>
    simp_all [calcMoveFor, SystemState.getV, Stations.occ, Stations.get?, mkStations, occOf]

/-- C6 witness: the invariant state reached right after initialization
satisfies the placement hypothesis and the chain from vehicle a terminates
within 4 hops. -/
theorem C6_terminates_consistent_witness :
    Placed stA 1 2 3 ∧ (calcMoveFor 4 stA VId.a).isSome = true :=
  ⟨by decide, C6_terminates_consistent stA 1 2 3 VId.a (by decide)⟩

/-- C7 counterexample: after its arrived report is processed, vehicle c is
idle but its `current_command_id` is still `some 1` — neither
`handle_report` nor `initialize` ever clears the field, so "activeCommandId
set iff moving" fails in a reachable state. -/
theorem C7_counterexample :
    Reach stC7c ∧ (stC7c.getV VId.c).status = VehicleStatus.idle ∧
    (stC7c.getV VId.c).current_command_id = some 1 := by
  refine ⟨?_, by decide, by decide⟩
  exact Reach.report stC7b VId.c ⟨1, .arrived, 4, 4, true, false⟩ (.ok true) stC7c
    (Reach.cmd stC7a 10 VId.c (.resp (some ⟨1, .forward, some 4⟩)) stC7b
      (Reach.call stA VId.c 4 (.ok true) stC7a
        (Reach.init posABC stA (by decide) (by decide)) (by decide))
      (by decide))
    (by decide)

/-- C7 (corrected, amended): in every reachable state the implication holds
in one direction only — a moving vehicle always carries a truthy active
command id; an idle vehicle may retain the id of its last command (the
stop response even reports that retained id). -/
theorem C7_moving_implies_cid (st : SystemState) (h : Reach st) (v : VId)
    (hm : (st.getV v).status = VehicleStatus.moving) :
    truthyCid (st.getV v).current_command_id = true :=
  (reach_cmdInv st h).2 v hm

/-- C7 witness: at the reachable state `stC7b`, vehicle c is moving and its
command id is truthy. -/
theorem C7_moving_implies_cid_witness :
    (stC7b.getV VId.c).status = VehicleStatus.moving ∧
    truthyCid (stC7b.getV VId.c).current_command_id = true :=
  ⟨by decide,
    C7_moving_implies_cid stC7b
      (Reach.cmd stC7a 10 VId.c (.resp (some ⟨1, .forward, some 4⟩)) stC7b
        (Reach.call stA VId.c 4 (.ok true) stC7a
          (Reach.init posABC stA (by decide) (by decide)) (by decide))
        (by decide))
      VId.c (by decide)⟩

/-- C8 (confirmed): from a:1, b:2, c:3 with station 4 empty and a single
pending request for c to reach station 1, the concrete finite sequence of
nextCommand polls and matching confident arrived reports (each report's
detected station equal to the commanded expected station) drives c to
station 1, every poll issues a forward command, every report completes, no
intermediate state has two vehicles on one station, and the request is
finally satisfied and removed. -/
theorem C8_chain_resolution :
    (t8s0.getV VId.a).current_station = some 1 ∧
    (t8s0.getV VId.b).current_station = some 2 ∧
    (t8s0.getV VId.c).current_station = some 3 ∧
    t8s0.stations.occ 4 = none ∧
    t8s0.pending_calls = [⟨VId.c, 1⟩] ∧
    t8g1.1 = .resp (some ⟨1, .forward, some 4⟩) ∧
    (handle_report t8g1.2 VId.c ⟨1, .arrived, 4, 4, true, false⟩).1 = .ok true ∧
    t8g2.1 = .resp (some ⟨2, .forward, some 3⟩) ∧
    (handle_report t8g2.2 VId.b ⟨2, .arrived, 3, 3, true, false⟩).1 = .ok true ∧
    t8g3.1 = .resp (some ⟨3, .forward, some 2⟩) ∧
    (handle_report t8g3.2 VId.a ⟨3, .arrived, 2, 2, true, false⟩).1 = .ok true ∧
    t8g4.1 = .resp (some ⟨4, .forward, some 1⟩) ∧
    (handle_report t8g4.2 VId.c ⟨4, .arrived, 1, 1, true, false⟩).1 = .ok true ∧
    NoShared t8s0 ∧ NoShared t8g1.2 ∧ NoShared t8s1 ∧ NoShared t8g2.2 ∧
    NoShared t8s2 ∧ NoShared t8g3.2 ∧ NoShared t8s3 ∧ NoShared t8g4.2 ∧
    NoShared t8s4 ∧
    (t8s4.getV VId.c).current_station = some 1 ∧
    t8s4.pending_calls = [] := by
  decide

/-! Section: C5: the look-ahead simulator versus the live selector -/

theorem calcNextMoveQ_cons (fuel : Nat) (st : SystemState) (call : PendingCall)
    (rest : List PendingCall) :
    calcNextMoveQ fuel st (call :: rest) =
      if (st.getV call.vehicle).current_station = some call.target_station then
        calcNextMoveQ fuel st rest
      else
        match (st.getV call.vehicle).current_station with
        | none => (some none, call :: rest)
        | some current =>
          match st.stations.occ (current % 4 + 1) with
          | none => (some (some ⟨call.vehicle, .forward, current % 4 + 1⟩), call :: rest)
          | some blocking => (calcMoveFor fuel st blocking, call :: rest) := rfl

theorem calcMoveFor_succ (fuel : Nat) (st : SystemState) (vid : VId) :
    calcMoveFor (fuel + 1) st vid =
      match (st.getV vid).current_station with
      | none => some none
      | some current =>
        match st.stations.occ (current % 4 + 1) with
        | none => some (some ⟨vid, .forward, current % 4 + 1⟩)
        | some blocking =>
          if blocking ≠ vid then calcMoveFor fuel st blocking else some none := rfl

theorem simLoop_cons (maxMoves fuel : Nat) (vst : VId → Option Int) (stm : Stations)
    (call : PendingCall) (rest : List PendingCall) (moves : List PlanMove) (step : Nat) :
    simLoop maxMoves (fuel + 1) vst stm (call :: rest) moves step =
      if maxMoves ≤ moves.length then moves
      else if vst call.vehicle = some call.target_station then
        simLoop maxMoves fuel vst stm rest moves step
      else
        match find_move_chain vst stm call.vehicle with
        | [] => moves
        | fm :: _ =>
          simLoop maxMoves fuel
            (fun w => if w = fm.vehicle then some fm.to_station else vst w)
            ((match fm.from_station with
              | some f => stm.set! f none
              | none => stm).set! fm.to_station (some fm.vehicle))
            (if fm.vehicle = call.vehicle ∧ fm.to_station = call.target_station then rest
             else call :: rest)
            (moves ++ [⟨step, fm.vehicle, fm.from_station, fm.to_station,
              if fm.vehicle = call.vehicle then "moving_to_target" else "making_space"⟩])
            (step + 1) := rfl

theorem simLoop_acc (maxMoves : Nat) : ∀ (fuel : Nat) (vst : VId → Option Int)
    (stm : Stations) (calls : List PendingCall) (moves : List PlanMove) (step : Nat),
    ∃ t, simLoop maxMoves fuel vst stm calls moves step = moves ++ t := by
  intro fuel
  induction fuel with
  | zero =>
    intro vst stm calls moves step
    exact ⟨[], by simp [simLoop]⟩
  | succ f ih =>
    intro vst stm calls moves step
    cases calls with
    | nil => exact ⟨[], by simp [simLoop]⟩
    | cons call rest =>
      rw [simLoop_cons]
      split_ifs with h1 h2
      · exact ⟨[], by simp⟩
      · exact ih vst stm rest moves step
      · cases hch : find_move_chain vst stm call.vehicle with
        | nil => exact ⟨[], by simp⟩
        | cons fm tl =>
          obtain ⟨t, ht⟩ := ih
            (fun w => if w = fm.vehicle then some fm.to_station else vst w)
            ((match fm.from_station with
              | some f => stm.set! f none
              | none => stm).set! fm.to_station (some fm.vehicle))
            (if fm.vehicle = call.vehicle ∧ fm.to_station = call.target_station then rest
             else call :: rest)
            (moves ++ [⟨step, fm.vehicle, fm.from_station, fm.to_station,
              if fm.vehicle = call.vehicle then "moving_to_target" else "making_space"⟩])
            (step + 1)
          refine ⟨⟨step, fm.vehicle, fm.from_station, fm.to_station,
              if fm.vehicle = call.vehicle then "moving_to_target" else "making_space"⟩ :: t, ?_⟩
          dsimp only
          rw [ht]
          simp

theorem simulate_first (st : SystemState) (call : PendingCall) (rest : List PendingCall)
    (hq : st.pending_calls = call :: rest)
    (hunmet : (st.getV call.vehicle).current_station ≠ some call.target_station)
    (fm : SimMove) (tail : List SimMove)
    (hchain : find_move_chain (fun v => (st.getV v).current_station) st.stations call.vehicle
      = fm :: tail) :
    ∃ t, simulate_next_moves st 10
      = ⟨1, fm.vehicle, fm.from_station, fm.to_station,
          if fm.vehicle = call.vehicle then "moving_to_target" else "making_space"⟩ :: t := by
  unfold simulate_next_moves
  rw [hq]
  have hfuel : 10 + (call :: rest).length + 1 = (10 + rest.length + 1) + 1 := by
    simp only [List.length_cons]
    omega
  rw [hfuel, simLoop_cons]
  rw [if_neg (by decide : ¬ (10 ≤ ([] : List PlanMove).length))]
  rw [if_neg hunmet, hchain]
  dsimp only
  obtain ⟨t, ht⟩ := simLoop_acc 10 (10 + rest.length + 1)
    (fun w => if w = fm.vehicle then some fm.to_station else (st.getV w).current_station)
    ((match fm.from_station with
      | some f => st.stations.set! f none
      | none => st.stations).set! fm.to_station (some fm.vehicle))
    (if fm.vehicle = call.vehicle ∧ fm.to_station = call.target_station then rest
     else call :: rest)
    [⟨1, fm.vehicle, fm.from_station, fm.to_station,
      if fm.vehicle = call.vehicle then "moving_to_target" else "making_space"⟩]
    2
  exact ⟨t, ht⟩

theorem placed_cur (st : SystemState) (sa sb sc : Int) (hp : Placed st sa sb sc) :
    ∀ w, (st.getV w).current_station = some (stationOf sa sb sc w) := by
  obtain ⟨hva, hvb, hvc, _, _, _, _, _, _, _⟩ := hp
  intro w
  cases w <;> assumption

theorem placed_range (st : SystemState) (sa sb sc : Int) (hp : Placed st sa sb sc) :
    ∀ w, 1 ≤ stationOf sa sb sc w ∧ stationOf sa sb sc w ≤ 4 := by
  obtain ⟨_, _, _, hra, hrb, hrc, _, _, _, _⟩ := hp
  intro w
  cases w <;> assumption

theorem placed_station_of_occ (st : SystemState) (sa sb sc : Int)
    (hp : Placed st sa sb sc) :
    ∀ k w, st.stations.occ k = some w → k = stationOf sa sb sc w := by
  obtain ⟨_, _, _, _, _, _, _, _, _, hstm⟩ := hp
  intro k w hk
  rw [hstm] at hk
  cases w
  · exact occ_mk_eq_a sa sb sc k hk
  · exact occ_mk_eq_b sa sb sc k hk
  · exact occ_mk_eq_c sa sb sc k hk

theorem placed_occ_none_iff (st : SystemState) (sa sb sc : Int)
    (hp : Placed st sa sb sc) (k : Int) (hk : 1 ≤ k ∧ k ≤ 4) :
    st.stations.occ k = none ↔ (k ≠ sa ∧ k ≠ sb ∧ k ≠ sc) := by
  obtain ⟨_, _, _, _, _, _, _, _, _, hstm⟩ := hp
  rw [hstm]
  exact occ_mk_none_iff sa sb sc k hk

theorem vid_cover (x y z : VId) (hxy : x ≠ y) (hxz : x ≠ z) (hyz : y ≠ z) :
    ∀ u : VId, u = x ∨ u = y ∨ u = z := by
  intro u
  cases x <;> cases y <;> cases z <;> cases u <;> simp_all

theorem findEmpty_isSome_of_empty (s : Stations) (k : Int) (h1 : 1 ≤ k) (h2 : k ≤ 4)
    (hk : s.occ k = none) : s.findEmpty ≠ none := by
  have hk4 : k = 1 ∨ k = 2 ∨ k = 3 ∨ k = 4 := by omega
  unfold Stations.findEmpty
  split_ifs <;> simp_all [Stations.occ, Stations.get?]
  rcases hk4 with rfl | rfl | rfl | rfl <;> simp_all

/-- C5 (confirmed): on every initialized state satisfying the consistency
invariant (three vehicles on distinct in-range stations, matching
occupancy — hence exactly one empty station) whose pending queue has an
unmet head request, the first move emitted by the look-ahead simulator
(`_simulate_next_moves` / `_find_move_chain`: move the vehicle at the
predecessor of the unique empty station, or the head vehicle itself when
its successor is free) names the same vehicle and the same destination
station as the move chosen by the live selector (`_calculate_next_move` /
`_calculate_move_for_vehicle`, which chases the occupancy chain forward). -/
theorem C5_sim_agrees_live (st : SystemState) (sa sb sc : Int) (call : PendingCall)
    (rest : List PendingCall) (fuel : Nat) (hp : Placed st sa sb sc)
    (hq : st.pending_calls = call :: rest)
    (hunmet : (st.getV call.vehicle).current_station ≠ some call.target_station)
    (hf : 2 ≤ fuel) :
    ∃ (m : Move) (pm : PlanMove) (t : List PlanMove),
      (calcNextMove fuel st).1 = some (some m) ∧
      simulate_next_moves st 10 = pm :: t ∧
      pm.vehicle = m.vehicle ∧ pm.to_station = m.expected_station := by
  obtain ⟨f2, rfl⟩ : ∃ f2, fuel = f2 + 2 := ⟨fuel - 2, by omega⟩
  have hcur := placed_cur st sa sb sc hp
  have hofocc := placed_station_of_occ st sa sb sc hp
  have hnone := placed_occ_none_iff st sa sb sc hp
  have hr := placed_range st sa sb sc hp
  have hab : sa ≠ sb := hp.2.2.2.2.2.2.1
  have hac : sa ≠ sc := hp.2.2.2.2.2.2.2.1
  have hbc : sb ≠ sc := hp.2.2.2.2.2.2.2.2.1
  have hrsa : 1 ≤ sa ∧ sa ≤ 4 := hp.2.2.2.1
  have hrsb : 1 ≤ sb ∧ sb ≤ 4 := hp.2.2.2.2.1
  have hrsc : 1 ≤ sc ∧ sc ≤ 4 := hp.2.2.2.2.2.1
  have hs := hcur call.vehicle
  have hsr := hr call.vehicle
  have hlive : (calcNextMove (f2 + 2) st).1
      = (calcNextMoveQ (f2 + 2) st (call :: rest)).1 := by
    unfold calcNextMove
    rw [hq]
  rw [hlive, calcNextMoveQ_cons, if_neg hunmet, hs]
  dsimp only
  cases hocc : st.stations.occ (stationOf sa sb sc call.vehicle % 4 + 1) with
  | none =>
    dsimp only
    have hchain : find_move_chain (fun v => (st.getV v).current_station) st.stations
        call.vehicle = [⟨call.vehicle, some (stationOf sa sb sc call.vehicle),
          stationOf sa sb sc call.vehicle % 4 + 1⟩] := by
      unfold find_move_chain getNextStation
      simp only [hs]
      rw [if_pos hocc]
    obtain ⟨t, hsim⟩ := simulate_first st call rest hq hunmet _ _ hchain
    exact ⟨⟨call.vehicle, .forward, stationOf sa sb sc call.vehicle % 4 + 1⟩,
      _, t, rfl, hsim, rfl, rfl⟩
  | some w =>
    dsimp only
    have hws : stationOf sa sb sc w = stationOf sa sb sc call.vehicle % 4 + 1 :=
      (hofocc _ w hocc).symm
    have hwh : w ≠ call.vehicle := by
      intro he
      rw [he] at hws
      omega
    have hcm : calcMoveFor (f2 + 2) st w
        = (match (st.getV w).current_station with
          | none => some none
          | some current =>
            match st.stations.occ (current % 4 + 1) with
            | none => some (some ⟨w, .forward, current % 4 + 1⟩)
            | some blocking =>
              if blocking ≠ w then calcMoveFor (f2 + 1) st blocking else some none) :=
      calcMoveFor_succ (f2 + 1) st w
    rw [hcur w, hws] at hcm
    dsimp only at hcm
    cases hocc2 : st.stations.occ ((stationOf sa sb sc call.vehicle % 4 + 1) % 4 + 1) with
    | none =>
      rw [hocc2] at hcm
      dsimp only at hcm
      have hnr : 1 ≤ (stationOf sa sb sc call.vehicle % 4 + 1) % 4 + 1 ∧
          (stationOf sa sb sc call.vehicle % 4 + 1) % 4 + 1 ≤ 4 := by omega
      have hfe := findEmpty_isSome_of_empty st.stations _ hnr.1 hnr.2 hocc2
      obtain ⟨e, he⟩ := Option.ne_none_iff_exists'.mp hfe
      obtain ⟨hoe, he1, he2⟩ := findEmpty_occ st.stations e he
      have hee : e = (stationOf sa sb sc call.vehicle % 4 + 1) % 4 + 1 := by
        have hx := (hnone e ⟨he1, he2⟩).mp hoe
        have hy := (hnone _ hnr).mp hocc2
        omega
      have hprev : getPrevStation e = stationOf sa sb sc call.vehicle % 4 + 1 := by
        rw [hee]
        unfold getPrevStation
        omega
      have hchain : find_move_chain (fun v => (st.getV v).current_station) st.stations
          call.vehicle = [⟨w, some (stationOf sa sb sc call.vehicle % 4 + 1), e⟩] := by
        unfold find_move_chain getNextStation
        simp only [hs]
        rw [if_neg (by rw [hocc]; simp)]
        rw [he]
        dsimp only
        rw [hprev, hocc]
      obtain ⟨t, hsim⟩ := simulate_first st call rest hq hunmet _ _ hchain
      exact ⟨⟨w, .forward, (stationOf sa sb sc call.vehicle % 4 + 1) % 4 + 1⟩,
        _, t, by rw [hcm], hsim, rfl, hee⟩
    | some u =>
      rw [hocc2] at hcm
      dsimp only at hcm
      have hus : stationOf sa sb sc u = (stationOf sa sb sc call.vehicle % 4 + 1) % 4 + 1 :=
        (hofocc _ u hocc2).symm
      have huw : u ≠ w := by
        intro he
        rw [he, hws] at hus
        omega
      have hu_h : u ≠ call.vehicle := by
        intro he
        rw [he] at hus
        omega
      rw [if_pos huw] at hcm
      have hcm2 : calcMoveFor (f2 + 1) st u
          = (match (st.getV u).current_station with
            | none => some none
            | some current =>
              match st.stations.occ (current % 4 + 1) with
              | none => some (some ⟨u, .forward, current % 4 + 1⟩)
              | some blocking =>
                if blocking ≠ u then calcMoveFor f2 st blocking else some none) :=
        calcMoveFor_succ f2 st u
      rw [hcur u, hus] at hcm2
      dsimp only at hcm2
      have hcov := vid_cover call.vehicle w u (Ne.symm hwh) (Ne.symm hu_h) (Ne.symm huw)
      have hstations : ∀ x : VId,
          stationOf sa sb sc x = stationOf sa sb sc call.vehicle ∨
          stationOf sa sb sc x = stationOf sa sb sc call.vehicle % 4 + 1 ∨
          stationOf sa sb sc x = (stationOf sa sb sc call.vehicle % 4 + 1) % 4 + 1 := by
        intro x
        rcases hcov x with h | h | h
        · exact Or.inl (by rw [h])
        · exact Or.inr (Or.inl (by rw [h, hws]))
        · exact Or.inr (Or.inr (by rw [h, hus]))
      have hocc3 : st.stations.occ
          (((stationOf sa sb sc call.vehicle % 4 + 1) % 4 + 1) % 4 + 1) = none := by
        apply (hnone _ (by omega)).mpr
        have hda : sa = stationOf sa sb sc call.vehicle ∨
            sa = stationOf sa sb sc call.vehicle % 4 + 1 ∨
            sa = (stationOf sa sb sc call.vehicle % 4 + 1) % 4 + 1 := hstations .a
        have hdb : sb = stationOf sa sb sc call.vehicle ∨
            sb = stationOf sa sb sc call.vehicle % 4 + 1 ∨
            sb = (stationOf sa sb sc call.vehicle % 4 + 1) % 4 + 1 := hstations .b
        have hdc : sc = stationOf sa sb sc call.vehicle ∨
            sc = stationOf sa sb sc call.vehicle % 4 + 1 ∨
            sc = (stationOf sa sb sc call.vehicle % 4 + 1) % 4 + 1 := hstations .c
        refine ⟨?_, ?_, ?_⟩
        · rcases hda with h | h | h <;> omega
        · rcases hdb with h | h | h <;> omega
        · rcases hdc with h | h | h <;> omega
      rw [hocc3] at hcm2
      dsimp only at hcm2
      have hnr3 : 1 ≤ ((stationOf sa sb sc call.vehicle % 4 + 1) % 4 + 1) % 4 + 1 ∧
          ((stationOf sa sb sc call.vehicle % 4 + 1) % 4 + 1) % 4 + 1 ≤ 4 := by omega
      have hfe := findEmpty_isSome_of_empty st.stations _ hnr3.1 hnr3.2 hocc3
      obtain ⟨e, he⟩ := Option.ne_none_iff_exists'.mp hfe
      obtain ⟨hoe, he1, he2⟩ := findEmpty_occ st.stations e he
      have hee : e = ((stationOf sa sb sc call.vehicle % 4 + 1) % 4 + 1) % 4 + 1 := by
        have hx := (hnone e ⟨he1, he2⟩).mp hoe
        have hy := (hnone _ hnr3).mp hocc3
        omega
      have hprev : getPrevStation e = (stationOf sa sb sc call.vehicle % 4 + 1) % 4 + 1 := by
        rw [hee]
        unfold getPrevStation
        omega
      have hchain : find_move_chain (fun v => (st.getV v).current_station) st.stations
          call.vehicle
          = [⟨u, some ((stationOf sa sb sc call.vehicle % 4 + 1) % 4 + 1), e⟩] := by
        unfold find_move_chain getNextStation
        simp only [hs]
        rw [if_neg (by rw [hocc]; simp)]
        rw [he]
        dsimp only
        rw [hprev, hocc2]
      obtain ⟨t, hsim⟩ := simulate_first st call rest hq hunmet _ _ hchain
      exact ⟨⟨u, .forward, ((stationOf sa sb sc call.vehicle % 4 + 1) % 4 + 1) % 4 + 1⟩,
        _, t, by rw [hcm, hcm2], hsim, rfl, hee⟩

/-- C5 witness: on the concrete blocked configuration (c at 4 requesting 1,
a at 1, b at 2, station 3 empty) the live selector and the simulator's
first emitted move both move vehicle b to station 3. -/
theorem C5_sim_agrees_live_witness :
    ∃ (m : Move) (pm : PlanMove) (t : List PlanMove),
      (calcNextMove 4 t8s1).1 = some (some m) ∧
      simulate_next_moves t8s1 10 = pm :: t ∧
      pm.vehicle = m.vehicle ∧ pm.to_station = m.expected_station :=
  C5_sim_agrees_live t8s1 1 2 4 ⟨VId.c, 1⟩ [] 4 (by decide) (by decide) (by decide)
    (by decide)

end RingRail
